import Mathlib

/-!
Verification of the Nexari translation-gateway sources (Deno / TypeScript)
against their natural-language specification.

Modelling conventions for the shallow embedding:
* JavaScript strings are Lean `String`s (or `List Char` where character-level
  scanning is needed).
* JSON values (request bodies, upstream payloads and responses) are the
  inductive `Json` below; JavaScript numbers are modelled as `Int` (no claim
  under verification depends on float behaviour).
* External effects are explicit parameters: `fetch` outcomes are an oracle
  `Nat → FetchOutcome` giving the result of the i-th network call of a
  request, `createHmac("sha256", SHARED_SECRET)…digest("hex")` is an oracle
  `String → String`, `JSON.parse` of an arbitrary upstream body is an oracle
  `String → Option Json` (`none` = parse throws), and `JSON.parse(atob p)` in
  the auth verifier is an oracle `String → Option Json`.
* Fallible JavaScript code (property access on `null`, `toLowerCase` on a
  non-string, `messages[0]` of an empty array) is modelled with `Option`:
  `none` means the original code throws a `TypeError` at that point.
-/

/-- JSON values as produced by `JSON.parse`.  Object fields are listed in
insertion order and are assumed duplicate-free (as `JSON.parse` delivers). -/
inductive Json where
  | null
  | bool (b : Bool)
  | num (n : Int)
  | str (s : String)
  | arr (xs : List Json)
  | obj (fields : List (String × Json))

/-- Property read `v["k"]`: `some` iff `v` is an object with field `k`
(`none` models JavaScript `undefined`). -/
def jsGet (v : Json) (k : String) : Option Json :=
  match v with
  | Json.obj fields => fields.lookup k
  | _ => none

/-- JavaScript truthiness of a JSON value. -/
def truthy : Json → Bool
  | Json.null => false
  | Json.bool b => b
  | Json.num n => n != 0
  | Json.str s => s != ""
  | Json.arr _ => true
  | Json.obj _ => true

/-- Truthiness of a possibly-absent value (absent = `undefined` = falsy). -/
def truthyO : Option Json → Bool
  | some v => truthy v
  | none => false

/-- `a ?? b` for one step of a nullish-coalescing chain: keep `a` unless it is
absent (`undefined`) or `null`. -/
def nonNullish : Option Json → Option Json
  | some Json.null => none
  | some v => some v
  | none => none

mutual

/-- JavaScript `String(x)` on a JSON value (ASCII/commonly-hit cases: `null`,
booleans, integers, strings, arrays joined by commas, plain objects). -/
def jsToString : Json → String
  | Json.null => "null"
  | Json.bool b => if b then "true" else "false"
  | Json.num n => toString n
  | Json.str s => s
  | Json.arr xs => jsArrString xs
  | Json.obj _ => "[object Object]"

/-- `Array.prototype.toString`: elements joined by commas, `null` elements
rendered as the empty string. -/
def jsArrString : List Json → String
  | [] => ""
  | [x] =>
    match x with
    | Json.null => ""
    | x' => jsToString x'
  | x :: xs =>
    (match x with
     | Json.null => ""
     | x' => jsToString x') ++ "," ++ jsArrString xs

end

/-- First occurrence of `delim` inside a character list: `some (a, b)` splits
the input as `a ++ delim ++ b` at the leftmost occurrence. -/
def splitAtSub (delim : List Char) : List Char → Option (List Char × List Char)
  | [] => if delim = [] then some ([], []) else none
  | c :: rest =>
    if delim.isPrefixOf (c :: rest) then some ([], (c :: rest).drop delim.length)
    else (splitAtSub delim rest).map (fun p => (c :: p.1, p.2))

/-- Substring test (`String.prototype.includes` for a fixed non-empty
pattern). -/
def strContainsSub (s pat : String) : Bool :=
  (splitAtSub pat.toList s.toList).isSome

/-- First two components of `s.split(c)` as used by
`const [a, b] = s.split(".")`: `a` is the text before the first separator
(or all of `s`), `b` is the text between the first and second separators
(`none` models `undefined` when no separator occurs). -/
def jsSplit2 (sep : Char) (cs : List Char) : List Char × Option (List Char) :=
  match splitAtSub [sep] cs with
  | none => (cs, none)
  | some (a, rest) =>
    match splitAtSub [sep] rest with
    | none => (a, some rest)
    | some (b, _) => (a, some b)

/-- JSON-ish characterization used below: is the value the string `s`? -/
def jsIsStr (v : Option Json) (s : String) : Bool :=
  match v with
  | some (Json.str t) => t = s
  | _ => false

/-- The ASCII core of the JavaScript `\\s` class (space, tab, line feed,
vertical tab, form feed, carriage return; the Unicode spaces that `\\s` also
matches do not occur in any input considered here). -/
def isJsSpace (c : Char) : Bool :=
  c == ' ' || c == '\t' || c == '\n' || c == '\r' || c == '\x0b' || c == '\x0c'

/-- ASCII lower-casing of one character (all strings compared after
`toLowerCase` in the sources are ASCII). -/
def charLower (c : Char) : Char :=
  if 'A' ≤ c && c ≤ 'Z' then Char.ofNat (c.toNat + 32) else c

/-- `String.prototype.toLowerCase` (ASCII). -/
def strLower (s : String) : String := String.mk (s.toList.map charLower)

/-- `String.prototype.trim` on a character list. -/
def listTrim (cs : List Char) : List Char :=
  ((cs.dropWhile isJsSpace).reverse.dropWhile isJsSpace).reverse

/-- `res.ok` of a fetch `Response`: HTTP status in 200–299. -/
def isOkStatus (st : Nat) : Bool := 200 ≤ st && st ≤ 299

/-- Outcome of one `fetch` call: an HTTP response with a fully-read text
body, or a thrown network/abort error with its message. -/
inductive FetchOutcome where
  | http (status : Nat) (body : String)
  | netErr (msg : String)

section SplitLemmas

/-- Helper for first-occurrence reasoning: `splitAtSub` on `a ++ delim ++ b`
finds the occurrence at the end of `a`, provided the first character of
`delim` occurs nowhere else in `delim` and `delim` is not contained in `a`.
(The character-uniqueness hypothesis rules out occurrences straddling the
boundary of `a` and `delim`.) -/
theorem splitAtSub_append (d : Char) (dtail a b : List Char)
    (hd : d ∉ dtail) (ha : ¬ (d :: dtail) <:+: a) :
    splitAtSub (d :: dtail) (a ++ (d :: dtail) ++ b) = some (a, b) := by
  induction a with
  | nil =>
    have h1 : ([] : List Char) ++ (d :: dtail) ++ b = d :: (dtail ++ b) := by simp
    rw [h1]
    show (if (d :: dtail).isPrefixOf (d :: (dtail ++ b)) then
        some (([] : List Char), (d :: (dtail ++ b)).drop (d :: dtail).length)
      else (splitAtSub (d :: dtail) (dtail ++ b)).map (fun p => (d :: p.1, p.2)))
      = some ([], b)
    rw [if_pos (List.isPrefixOf_iff_prefix.mpr (by
      have : d :: (dtail ++ b) = (d :: dtail) ++ b := by simp
      rw [this]; exact List.prefix_append _ _))]
    have h2 : d :: (dtail ++ b) = (d :: dtail) ++ b := by simp
    rw [h2, List.drop_left]
  | cons x a' ih =>
    have hnotpre : ¬ (d :: dtail).isPrefixOf (x :: (a' ++ ((d :: dtail) ++ b))) := by
      intro hpre
      have hpre' : (d :: dtail) <+: (x :: a') ++ ((d :: dtail) ++ b) :=
        List.isPrefixOf_iff_prefix.mp (by simpa using hpre)
      by_cases hlen : (d :: dtail).length ≤ (x :: a').length
      · -- the occurrence would lie entirely inside `x :: a'`
        apply ha
        have htake : (d :: dtail) <+: (x :: a') :=
          List.prefix_of_prefix_length_le hpre' (List.prefix_append _ _) hlen
        exact htake.isInfix
      · -- the occurrence would cover the `d` that starts the real delimiter,
        -- forcing a second `d` inside `dtail`
        push_neg at hlen
        set k := (x :: a').length with hk
        have hk1 : 1 ≤ k := by simp [hk]
        have hklt : k < (d :: dtail).length := hlen
        have hidx : ((x :: a') ++ ((d :: dtail) ++ b))[k]? = some d := by
          rw [List.getElem?_append_right (by omega)]
          simp [hk]
        have hidx2 : ((x :: a') ++ ((d :: dtail) ++ b))[k]? = (d :: dtail)[k]? := by
          rcases hpre' with ⟨t, ht⟩
          rw [← ht, List.getElem?_append_left (by omega)]
        have hgk : (d :: dtail)[k]? = some d := by rw [← hidx2]; exact hidx
        have hmem : d ∈ dtail := by
          have hk0 : k ≠ 0 := by omega
          rcases Nat.exists_eq_succ_of_ne_zero hk0 with ⟨k', hkk⟩
          rw [hkk] at hgk
          simp only [List.getElem?_cons_succ] at hgk
          have hgk' : dtail.get? k' = some d := by
            rw [List.get?_eq_getElem?]; exact hgk
          exact List.get?_mem hgk'
        exact hd hmem
    have hstep : splitAtSub (d :: dtail) ((x :: a') ++ ((d :: dtail) ++ b))
        = (splitAtSub (d :: dtail) (a' ++ ((d :: dtail) ++ b))).map
            (fun p => (x :: p.1, p.2)) := by
      show (if (d :: dtail).isPrefixOf (x :: (a' ++ ((d :: dtail) ++ b))) then
          some (([] : List Char), (x :: (a' ++ ((d :: dtail) ++ b))).drop (d :: dtail).length)
        else (splitAtSub (d :: dtail) (a' ++ ((d :: dtail) ++ b))).map
            (fun p => (x :: p.1, p.2))) = _
      rw [if_neg hnotpre]
    have ha' : ¬ (d :: dtail) <:+: a' := fun h =>
      ha (h.trans (List.suffix_cons x a').isInfix)
    have := ih ha'
    rw [show (x :: a') ++ (d :: dtail) ++ b = (x :: a') ++ ((d :: dtail) ++ b) by simp,
      hstep]
    rw [show a' ++ (d :: dtail) ++ b = a' ++ ((d :: dtail) ++ b) from by simp] at this
    rw [this]
    rfl

end SplitLemmas

/-- `splitAtSub` with a single-character delimiter finds nothing when the
character does not occur. -/
theorem splitAtSub_single_none (c : Char) (cs : List Char) (h : c ∉ cs) :
    splitAtSub [c] cs = none := by
  induction cs with
  | nil => simp [splitAtSub]
  | cons x rest ih =>
    have hcx : c ≠ x := fun hcx => h (hcx ▸ List.mem_cons_self x rest)
    have hnp : ¬ [c].isPrefixOf (x :: rest) := by
      intro hp
      have hpre : [c] <+: (x :: rest) := List.isPrefixOf_iff_prefix.mp hp
      rcases hpre with ⟨t, ht⟩
      have hcx2 : c = x := by
        have hh := congrArg List.head? ht
        simpa using hh
      exact hcx hcx2
    show (if [c].isPrefixOf (x :: rest) then some (([] : List Char), (x :: rest).drop 1)
      else (splitAtSub [c] rest).map (fun p => (x :: p.1, p.2))) = none
    rw [if_neg hnp, ih (fun hm => h (List.mem_cons_of_mem x hm))]
    rfl

/-- Singleton-delimiter split on `a ++ c :: b` with `c ∉ a` yields `(a, b)`. -/
theorem splitAtSub_single_append (c : Char) (a b : List Char) (ha : c ∉ a) :
    splitAtSub [c] (a ++ c :: b) = some (a, b) := by
  have h := splitAtSub_append c [] a b (by simp)
    (fun hinf => ha (hinf.subset (List.mem_singleton_self c)))
  simpa using h

/-- A string is nonempty iff its character list is. -/
theorem toList_ne_nil_of_ne_empty (s : String) (h : s ≠ "") : s.toList ≠ [] := by
  intro hl
  apply h
  cases s with
  | mk data => cases data with
    | nil => rfl
    | cons x xs => simp [String.toList] at hl

/-- `String.toList` distributes over append. -/
theorem toList_append (a b : String) : (a ++ b).toList = a.toList ++ b.toList := by
  cases a; cases b; rfl

/-- JavaScript `Number()` coercion of a decimal numeral string (integer
numerals with an optional sign; the empty / all-whitespace string coerces to
`0`; anything else — including the non-integer numerals that no claim under
verification exercises — is NaN, modelled as `none`). -/
def parseNumStr (s : String) : Option Int :=
  let t := listTrim s.toList
  if t = [] then some 0
  else
    let (sign, ds) :=
      match t with
      | '-' :: rest => ((-1 : Int), rest)
      | '+' :: rest => ((1 : Int), rest)
      | l => ((1 : Int), l)
    if ds ≠ [] ∧ ds.all (·.isDigit) then
      some (sign * (ds.foldl (fun acc c => acc * 10 + ((c.toNat : Int) - ('0'.toNat : Int))) 0))
    else none

/-- JavaScript numeric coercion of a JSON value (`none` = NaN). -/
def jsToNumber? : Json → Option Int
  | Json.null => some 0
  | Json.bool b => some (if b then 1 else 0)
  | Json.num n => some n
  | Json.str s => parseNumStr s
  | Json.arr xs => parseNumStr (jsArrString xs)
  | Json.obj _ => none

/-- The JavaScript comparison `v < n` for a possibly-`undefined` left operand:
`undefined < n` and NaN comparisons are `false`. -/
def jsLt (v : Option Json) (n : Int) : Bool :=
  match v with
  | none => false
  | some j =>
    match jsToNumber? j with
    | some k => k < n
    | none => false

namespace ServerV1

/-- Embeds `verifyToken` from `src/server.ts` lines 29–38: split the header
at the first `.`, require both parts nonempty, and compare the supplied
signature with the HMAC of the payload.  This variant never decodes the
payload and never inspects an `exp` claim.  `hmacHex` is the oracle for
`createHmac("sha256", SHARED_SECRET).update(p).digest("hex")`. -/
def verifyToken (hmacHex : String → String) (authHeader : Option String) : Bool :=
  match authHeader with
  | none => false
  | some h =>
    if h = "" then false
    else
      let ps := jsSplit2 '.' h.toList
      match ps.2 with
      | none => false
      | some s =>
        if ps.1 = [] then false
        else if s = [] then false
        else String.mk s == hmacHex (String.mk ps.1)

end ServerV1

namespace Part000B

/-- Embeds `verifyToken` from `src/unnamed/part_000` lines 139–157: same
signature check as the `server.ts` variant, then
`JSON.parse(atob(payloadB64))` (the oracle `decodePayload`; `none` models a
thrown decode error, caught and turned into `false`) and the check
`if (payload.exp < Math.floor(Date.now() / 1000)) return false`.  A `null`
payload makes the member access throw, also caught as `false`. -/
def verifyToken (hmacHex : String → String) (decodePayload : String → Option Json)
    (now : Int) (authHeader : Option String) : Bool :=
  match authHeader with
  | none => false
  | some h =>
    if h = "" then false
    else
      let ps := jsSplit2 '.' h.toList
      match ps.2 with
      | none => false
      | some s =>
        if ps.1 = [] then false
        else if s = [] then false
        else if String.mk s != hmacHex (String.mk ps.1) then false
        else
          match decodePayload (String.mk ps.1) with
          | none => false
          | some Json.null => false
          | some payload => if jsLt (jsGet payload "exp") now then false else true

end Part000B

/-- Oracle instances for the C1 counterexample: the HMAC digest of the
payload `"eyJleHAiOjB9"` (base64 of `{"exp":0}`) is taken to be `"sig"`, and
its base64+JSON decoding is the object with `exp = 0`. -/
def cexHmac : String → String := fun _ => "sig"

/-- See `cexHmac`. -/
def cexDecode : String → Option Json := fun _ => some (Json.obj [("exp", Json.num 0)])

/-- Claim C1 (counterexample): the `server.ts` `verifyToken` (lines 29–38)
accepts a token whose `exp` claim lies strictly in the past.  The payload
`"eyJleHAiOjB9"` decodes to `{exp: 0}`, the signature matches the HMAC
oracle, the current time `1700000000` is far past `exp = 0`, and yet
`verifyToken` returns `true` — contradicting the claim that for every token
with `exp` in the past `verifyToken` returns `false` even when the signature
is correct. -/
theorem verifyToken_accepts_expired_cex :
    cexDecode "eyJleHAiOjB9" = some (Json.obj [("exp", Json.num 0)])
    ∧ cexHmac "eyJleHAiOjB9" = "sig"
    ∧ ((0 : Int) < 1700000000)
    ∧ ServerV1.verifyToken cexHmac (some "eyJleHAiOjB9.sig") = true := by
  refine ⟨rfl, rfl, by decide, by decide⟩

/-- Claim C1 (amended): in the `part_000` variant of `verifyToken` (the one
that does examine `exp`), a header `p.s` whose signature matches the HMAC of
`p` and whose payload decodes to an object with numeric claim `exp = e`
verifies successfully iff `now ≤ e`: every token with `exp` in the past is
rejected and every token with `exp` in the future is accepted — but a token
with `exp` equal to the current second is also accepted (the source checks
`exp < now`, not the spec's strict `exp > now`), and the primary `server.ts`
variant skips the expiry check entirely (see the counterexample). -/
theorem verifyToken_exp_check (hmacHex : String → String)
    (decodePayload : String → Option Json) (now : Int) (p s : String)
    (claims : List (String × Json)) (e : Int)
    (hp : p ≠ "") (hs : s ≠ "")
    (hpd : '.' ∉ p.toList) (hsd : '.' ∉ s.toList)
    (hsig : s = hmacHex p)
    (hdec : decodePayload p = some (Json.obj claims))
    (hexp : claims.lookup "exp" = some (Json.num e)) :
    Part000B.verifyToken hmacHex decodePayload now (some (p ++ "." ++ s))
      = decide (now ≤ e) := by
  have hlist : (p ++ "." ++ s).toList = p.toList ++ '.' :: s.toList := by
    rw [toList_append, toList_append]
    simp
  have hsplit : splitAtSub ['.'] ((p ++ "." ++ s).toList)
      = some (p.toList, s.toList) := by
    rw [hlist]; exact splitAtSub_single_append '.' _ _ hpd
  have hsplit2 : splitAtSub ['.'] s.toList = none := splitAtSub_single_none '.' _ hsd
  have hne : (p ++ "." ++ s) ≠ "" := by
    intro h0
    have h1 : (p ++ "." ++ s).toList = [] := by rw [h0]; rfl
    rw [hlist] at h1
    cases p.toList <;> simp at h1
  have hjs : jsSplit2 '.' ((p ++ "." ++ s).toList) = (p.toList, some s.toList) := by
    simp only [jsSplit2, hsplit, hsplit2]
  have hmkP : String.mk p.toList = p := rfl
  have hmkS : String.mk s.toList = s := rfl
  simp only [Part000B.verifyToken, hjs]
  rw [if_neg hne]
  rw [if_neg (toList_ne_nil_of_ne_empty p hp), if_neg (toList_ne_nil_of_ne_empty s hs)]
  rw [hmkP, hmkS, ← hsig]
  simp only [bne_self_eq_false, Bool.false_eq_true, if_false, hdec]
  have hget : jsGet (Json.obj claims) "exp" = some (Json.num e) := hexp
  rw [hget]
  simp only [jsLt, jsToNumber?]
  by_cases hlt : e < now
  · have h2 : ¬ now ≤ e := by omega
    simp [hlt, h2]
  · have h2 : now ≤ e := by omega
    simp [hlt, h2]

/-- Oracle instances for the C1 witness: the digest of payload `"pay"` is
`"h"` and its decoding carries `exp = 100`. -/
def w1Hmac : String → String := fun _ => "h"

/-- See `w1Hmac`. -/
def w1Decode : String → Option Json := fun _ => some (Json.obj [("exp", Json.num 100)])

/-- Witness for the amended C1 theorem at a concrete token: payload `"pay"`,
signature `"h"`, `exp = 100`, current time `50` — the hypotheses hold and the
token verifies. -/
theorem verifyToken_exp_check_witness :
    ("pay" : String) ≠ "" ∧ ("h" : String) ≠ ""
    ∧ '.' ∉ ("pay" : String).toList ∧ '.' ∉ ("h" : String).toList
    ∧ ("h" : String) = w1Hmac "pay"
    ∧ w1Decode "pay" = some (Json.obj [("exp", Json.num 100)])
    ∧ Part000B.verifyToken w1Hmac w1Decode 50 (some ("pay" ++ "." ++ "h")) = true := by
  refine ⟨by decide, by decide, by decide, by decide, rfl, rfl, ?_⟩
  have h := verifyToken_exp_check w1Hmac w1Decode 50 "pay" "h"
    [("exp", Json.num 100)] 100 (by decide) (by decide) (by decide) (by decide)
    rfl rfl rfl
  rw [h]
  decide

namespace Part002

/-- Scan for the lazy close `|>` of the token regex `<\|.*?\|>`: the `.`
does not match a newline, so the search fails at the first `'\n'`; otherwise
it stops at the first `|>` and returns the remaining input. -/
def findClose : List Char → Option (List Char)
  | [] => none
  | '|' :: '>' :: rest => some rest
  | '\n' :: _ => none
  | _ :: rest => findClose rest

/-- One fuelled pass of `text.replace(/<\|.*?\|>/g, "")`: at `<|` try to find
a closing `|>` on the same line; on success drop the whole match and continue
after it, otherwise keep the `<` and rescan from the next character (the
regex engine advances by one position on a failed match). -/
def rmTokAux : Nat → List Char → List Char
  | 0, cs => cs
  | _ + 1, [] => []
  | f + 1, '<' :: '|' :: rest =>
    (match findClose rest with
     | some rest' => rmTokAux f rest'
     | none => '<' :: rmTokAux f ('|' :: rest))
  | f + 1, c :: rest => c :: rmTokAux f rest

/-- `text.replace(/<\|.*?\|>/g, "")`. -/
def rmTok (cs : List Char) : List Char := rmTokAux cs.length cs

/-- `text.replace(/\[(SEP|CLS|PAD)\]/g, "")`. -/
def rmBrAux : Nat → List Char → List Char
  | 0, cs => cs
  | _ + 1, [] => []
  | f + 1, c :: rest =>
    if ("[SEP]".toList).isPrefixOf (c :: rest)
        || ("[CLS]".toList).isPrefixOf (c :: rest)
        || ("[PAD]".toList).isPrefixOf (c :: rest) then
      rmBrAux f ((c :: rest).drop 5)
    else c :: rmBrAux f rest

/-- See `rmBrAux`. -/
def rmBr (cs : List Char) : List Char := rmBrAux cs.length cs

/-- Line terminators after which the multiline anchor `^` matches. -/
def lineTermB (c : Char) : Bool := c == '\n' || c == '\r'

/-- Fuelled scanner for `text.replace(/^\s*#+\s*/gm, "")`: at a line-start
position take the maximal whitespace run, require at least one `#`, then the
maximal `#` run and another maximal whitespace run, drop all of it and
continue after the match (which is again a line start only when the last
consumed character was a line terminator); at any other position copy the
character through. -/
def stripHeadAux : Nat → Bool → List Char → List Char
  | 0, _, cs => cs
  | _ + 1, _, [] => []
  | f + 1, atLS, c :: rest =>
    if atLS then
      (match (c :: rest).dropWhile isJsSpace with
       | '#' :: _ =>
         let afterWs := (c :: rest).dropWhile isJsSpace
         let afterHash := afterWs.dropWhile (· == '#')
         let ws2 := afterHash.takeWhile isJsSpace
         let rest2 := afterHash.dropWhile isJsSpace
         stripHeadAux f
           (match ws2.getLast? with
            | some c' => lineTermB c'
            | none => false)
           rest2
       | _ => c :: stripHeadAux f (lineTermB c) rest)
    else c :: stripHeadAux f (lineTermB c) rest

/-- See `stripHeadAux`; scanning starts at a line start. -/
def stripHeadings (cs : List Char) : List Char := stripHeadAux cs.length true cs

/-- Embeds `cleanAiResponse` from `src/unnamed/part_002` lines 96–116: the
falsy guard (`null` and the empty string both yield `null`), then removal of
`<|…|>` special tokens, of `[SEP]`/`[CLS]`/`[PAD]`, of `井`, then stripping
of leading Markdown heading markers per line, and a final trim. -/
def cleanAiResponse (text : Option String) : Option String :=
  match text with
  | none => none
  | some s =>
    if s = "" then none
    else
      some (String.mk (listTrim (stripHeadings
        ((rmBr (rmTok s.toList)).filter (fun c => c ≠ '井')))))

end Part002

/-- Claim C6 (code evaluated at the failing input): the artifact-sanitation
pass is not idempotent.  On `"## # x"` one application strips the leading
`"## "` leaving `"# x"`, and a second application strips the now-leading
`"# "` leaving `"x"` — so `clean (clean s) ≠ clean s`, contradicting the
spec's requirement that re-applying the pass to already-clean text changes
nothing. -/
theorem cleanAiResponse_not_idempotent :
    Part002.cleanAiResponse (some "## # x") = some "# x"
    ∧ Part002.cleanAiResponse (Part002.cleanAiResponse (some "## # x")) = some "x"
    ∧ some ("x" : String) ≠ some ("# x" : String) := by
  refine ⟨rfl, rfl, by decide⟩

namespace ServerV3

/-- A formatted error as built by `formatHfError` (`src/server.ts` lines
510–549): `{error: {code, message, details}}`. -/
structure FmtError where
  code : String
  message : String
  details : Json

/-- The truthiness chain `a || b || c`. -/
def firstTruthy (a b : Option Json) (c : Json) : Json :=
  if truthyO a then a.getD c else if truthyO b then b.getD c else c

/-- `jsonBody?.error?.message || jsonBody?.error || rawBody` where
`jsonBody = safeJsonParse(rawBody)` (the `jsonParse` oracle; `none` models a
parse failure, which `safeJsonParse` turns into `null`). -/
def hfErrorMsgOf (jsonParse : String → Option Json) (rawBody : String) : Json :=
  let jsonBody := jsonParse rawBody
  firstTruthy
    (jsonBody.bind (fun jb => (jsGet jb "error").bind (fun e => jsGet e "message")))
    (jsonBody.bind (fun jb => jsGet jb "error"))
    (Json.str rawBody)

/-- Embeds `formatHfError` from `src/server.ts` lines 510–549: a status-driven
`(code, message)` assignment, then an unconditional override to
`CONTEXT_LIMIT` whenever the extracted upstream message is a string whose
lower-casing contains `"context length"`. -/
def formatHfError (jsonParse : String → Option Json) (status : Nat)
    (rawBody : String) : FmtError :=
  let hfErrorMsg := hfErrorMsgOf jsonParse rawBody
  let cm : String × String :=
    if status = 503 then
      ("MODEL_LOADING",
       "The AI model is currently loading on the server. Please try again in about 20-30 seconds.")
    else if status = 429 then
      ("HEAVY_TRAFFIC",
       "Too many requests. The AI server is currently busy. Please wait a moment before trying again.")
    else if status = 401 ∨ status = 403 then
      ("AUTH_ERROR",
       "Authentication failed with the AI provider. Please check the server configuration.")
    else if status = 400 then
      ("INVALID_REQUEST", "The request was invalid. Your prompt might be too long.")
    else if status = 500 ∨ status = 502 ∨ status = 504 then
      ("UPSTREAM_ERROR", "The AI provider is experiencing connection issues.")
    else
      ("UNKNOWN_ERROR", "An unexpected error occurred while contacting the AI model.")
  let final : String × String :=
    match hfErrorMsg with
    | Json.str s =>
      if strContainsSub (strLower s) "context length" then
        ("CONTEXT_LIMIT", "The conversation is too long for this model. Please start a new chat.")
      else cm
    | _ => cm
  ⟨final.1, final.2, hfErrorMsg⟩

/-- The JSON body `{error: {code, message, details}}` of a formatted error. -/
def errJson (fe : FmtError) : Json :=
  Json.obj [("error", Json.obj
    [("code", Json.str fe.code), ("message", Json.str fe.message),
     ("details", fe.details)])]

/-- Spec-side definition (following the amended claim's words): the error
code determined by the HTTP status alone. -/
def statusOnlyCode (status : Nat) : String :=
  if status = 503 then "MODEL_LOADING"
  else if status = 429 then "HEAVY_TRAFFIC"
  else if status = 401 ∨ status = 403 then "AUTH_ERROR"
  else if status = 400 then "INVALID_REQUEST"
  else if status = 500 ∨ status = 502 ∨ status = 504 then "UPSTREAM_ERROR"
  else "UNKNOWN_ERROR"

/-- Spec-side definition: does the extracted upstream message of this body
mention "context length" (case-insensitively)? -/
def mentionsContextLength (jsonParse : String → Option Json) (rawBody : String) : Bool :=
  match hfErrorMsgOf jsonParse rawBody with
  | Json.str s => strContainsSub (strLower s) "context length"
  | _ => false

/-- The classifier's code is the context-length override when it applies and
the status-only code otherwise. -/
theorem formatHfError_code_eq (jsonParse : String → Option Json) (status : Nat)
    (rawBody : String) :
    (formatHfError jsonParse status rawBody).code
      = if mentionsContextLength jsonParse rawBody then "CONTEXT_LIMIT"
        else statusOnlyCode status := by
  cases h : hfErrorMsgOf jsonParse rawBody with
  | str s =>
    simp only [formatHfError, mentionsContextLength, statusOnlyCode, h]
    by_cases hc : strContainsSub (strLower s) "context length" = true
    · simp [hc]
    · simp only [Bool.not_eq_true] at hc
      simp only [hc]
      simp only [Bool.false_eq_true, if_false]
      split_ifs <;> rfl
  | null =>
    simp only [formatHfError, mentionsContextLength, statusOnlyCode, h]
    simp only [Bool.false_eq_true, if_false]
    split_ifs <;> rfl
  | bool b =>
    simp only [formatHfError, mentionsContextLength, statusOnlyCode, h]
    simp only [Bool.false_eq_true, if_false]
    split_ifs <;> rfl
  | num n =>
    simp only [formatHfError, mentionsContextLength, statusOnlyCode, h]
    simp only [Bool.false_eq_true, if_false]
    split_ifs <;> rfl
  | arr xs =>
    simp only [formatHfError, mentionsContextLength, statusOnlyCode, h]
    simp only [Bool.false_eq_true, if_false]
    split_ifs <;> rfl
  | obj fs =>
    simp only [formatHfError, mentionsContextLength, statusOnlyCode, h]
    simp only [Bool.false_eq_true, if_false]
    split_ifs <;> rfl

end ServerV3

/-- Claim C8 (amended): `formatHfError` assigns `CONTEXT_LIMIT` (the spec's
`ContextLimitExceeded`) to exactly those `(status, rawBody)` pairs whose
extracted upstream message is a string containing "context length"
case-insensitively — for every status, not only 400; on every other pair the
code is determined by the status alone: 503 → `MODEL_LOADING`,
429 → `HEAVY_TRAFFIC`, 401/403 → `AUTH_ERROR`, 400 → `INVALID_REQUEST`,
500/502/504 → `UPSTREAM_ERROR`, and anything else — including 404 —
→ `UNKNOWN_ERROR` (there is no `ModelNotFound` mapping in this
classifier). -/
theorem formatHfError_code_spec (jsonParse : String → Option Json)
    (status : Nat) (rawBody : String) :
    ((ServerV3.formatHfError jsonParse status rawBody).code = "CONTEXT_LIMIT"
      ↔ ServerV3.mentionsContextLength jsonParse rawBody = true)
    ∧ (ServerV3.mentionsContextLength jsonParse rawBody = false →
      (ServerV3.formatHfError jsonParse status rawBody).code
        = ServerV3.statusOnlyCode status) := by
  have hne : ServerV3.statusOnlyCode status ≠ "CONTEXT_LIMIT" := by
    unfold ServerV3.statusOnlyCode
    split_ifs <;> decide
  rw [ServerV3.formatHfError_code_eq]
  constructor
  · by_cases hm : ServerV3.mentionsContextLength jsonParse rawBody = true
    · simp [hm]
    · simp only [Bool.not_eq_true] at hm
      simp [hm, hne]
  · intro hm
    simp [hm]

/-- The `JSON.parse` oracle for the concrete plain-text bodies used in the
C8 theorems below (none of them is valid JSON, so parsing throws). -/
def jsonParseNone : String → Option Json := fun _ => none

/-- Claim C8 (counterexample): on the pair `(503, "… context length …")` the
classifier returns `CONTEXT_LIMIT`, not the status-determined
`MODEL_LOADING` — so for statuses other than 400 the kind is not determined
by the status alone; and `(404, "Not Found")` yields `UNKNOWN_ERROR`, not a
`ModelNotFound` kind. -/
theorem formatHfError_context_cex :
    (ServerV3.formatHfError jsonParseNone 503
      "Error: maximum context length exceeded").code = "CONTEXT_LIMIT"
    ∧ ("CONTEXT_LIMIT" : String) ≠ "MODEL_LOADING"
    ∧ (ServerV3.formatHfError jsonParseNone 404 "Not Found").code
      = "UNKNOWN_ERROR" := by
  refine ⟨rfl, by decide, rfl⟩

/-- Witness for the amended C8 theorem: on `(404, "oops")` the context check
is off and the code is the status-only `UNKNOWN_ERROR`. -/
theorem formatHfError_code_spec_witness :
    ServerV3.mentionsContextLength jsonParseNone "oops" = false
    ∧ (ServerV3.formatHfError jsonParseNone 404 "oops").code
      = ServerV3.statusOnlyCode 404 := by
  refine ⟨rfl, ?_⟩
  exact (formatHfError_code_spec jsonParseNone 404 "oops").2 rfl

namespace ServerV3

/-- A normalized message `{role, content}` as built by `normalizeIncoming`:
the role is passed through as-is (an arbitrary JSON value, defaulted when
nullish), the content is always coerced to a string. -/
structure NormMsg where
  role : Json
  content : String

/-- `m.role ?? "user"`. -/
def normRole (m : Json) : Json :=
  match jsGet m "role" with
  | none => Json.str "user"
  | some Json.null => Json.str "user"
  | some v => v

/-- `isString(m.content) ? m.content : String(m.content ?? "")`. -/
def normContent (m : Json) : String :=
  match jsGet m "content" with
  | none => ""
  | some Json.null => ""
  | some (Json.str s) => s
  | some v => jsToString v

/-- One element of the `messages.map(...)` in `normalizeIncoming`; `none`
models the `TypeError` thrown when the element is `null`. -/
def normMsgOf (m : Json) : Option NormMsg :=
  match m with
  | Json.null => none
  | m' => some ⟨normRole m', normContent m'⟩

/-- The result of `normalizeIncoming`: the canonical message sequence (absent
when neither rule produced one) plus the forwarded top-level parameters. -/
structure Norm where
  messages : Option (List NormMsg)
  params : List (String × Json)

/-- The whitelist `["max_tokens", "temperature", "top_p", "n", "stop",
"stream"]`. -/
def allowedParams : List String :=
  ["max_tokens", "temperature", "top_p", "n", "stop", "stream"]

/-- `for (const k of allowed) if (k in body) out[k] = body[k]`. -/
def paramsOf (body : Json) : List (String × Json) :=
  allowedParams.filterMap (fun k => (jsGet body k).map (fun v => (k, v)))

/-- The legacy branch of `normalizeIncoming`: if any of `input`, `inputs`,
`prompt`, `message` is truthy, synthesize a single user message from the
first non-nullish of them (the source tests with `||` but selects with `??`,
so for example a present-but-empty `input` is selected by a later truthy
field's guard). -/
def legacyMessages (body : Json) : Option (List NormMsg) :=
  if truthyO (jsGet body "input") || truthyO (jsGet body "inputs")
      || truthyO (jsGet body "prompt") || truthyO (jsGet body "message") then
    let text := nonNullish (jsGet body "input") <|> nonNullish (jsGet body "inputs")
      <|> nonNullish (jsGet body "prompt") <|> nonNullish (jsGet body "message")
    some [⟨Json.str "user",
      match text with
      | none => ""
      | some Json.null => ""
      | some (Json.str s) => s
      | some v => jsToString v⟩]
  else none

/-- Embeds `normalizeIncoming` from `src/server.ts` lines 551–562 (the same
function appears at `src/server.ts` lines 294–305 and
`src/unnamed/part_002` lines 27–40): a non-empty `messages` array is mapped
element-for-element (role defaulted, content coerced), otherwise a single
user message is synthesized from the legacy fields, otherwise no message
sequence is produced; the allow-listed parameters are copied through.  The
outer `Option` models a thrown `TypeError`: a `null` body throws at
`body.messages` (line 553), a `null` message element throws inside the map
(line 554), and a primitive body — string, number or boolean — throws at the
`k in body` test of the parameter loop (line 560), which happens after the
(unobservable) message computation; only objects and arrays normalize. -/
def normalizeIncoming (body : Json) : Option Norm :=
  match body with
  | Json.obj _ | Json.arr _ =>
    let msgs : Option (Option (List NormMsg)) :=
      match jsGet body "messages" with
      | some (Json.arr ms) =>
        if ms.length > 0 then (ms.mapM normMsgOf).map some
        else some (legacyMessages body)
      | _ => some (legacyMessages body)
    match msgs with
    | none => none
    | some m => some ⟨m, paramsOf body⟩
  | _ => none

/-- Mapping a list of non-`null` message elements never throws and maps
element-for-element. -/
theorem mapM_normMsgOf_eq (ms : List Json) (hnn : ∀ m ∈ ms, m ≠ Json.null) :
    ms.mapM normMsgOf
      = some (ms.map (fun m => NormMsg.mk (normRole m) (normContent m))) := by
  induction ms with
  | nil => rfl
  | cons m rest ih =>
    have hm : normMsgOf m = some ⟨normRole m, normContent m⟩ := by
      cases m with
      | null => exact absurd rfl (hnn Json.null (List.mem_cons_self _ _))
      | bool b => rfl
      | num n => rfl
      | str s => rfl
      | arr xs => rfl
      | obj fs => rfl
    rw [List.mapM_cons, hm, ih (fun x hx => hnn x (List.mem_cons_of_mem m hx))]
    rfl

end ServerV3

/-- Claim C4: for every request body whose `messages` field is a non-empty
array (of non-`null` elements — a `null` element makes the source throw),
the canonical message sequence equals that array element-for-element in the
same order: each element's `content` is coerced to a string (a string is
kept, any other value is stringified via `String(… ?? "")`, no element is
dropped) and its `role` defaults to `"user"` exactly when absent or `null`;
the allow-listed parameters are forwarded unchanged. -/
theorem normalizeIncoming_messages_spec (body : Json) (ms : List Json)
    (hms : jsGet body "messages" = some (Json.arr ms))
    (hne : ms ≠ [])
    (hnn : ∀ m ∈ ms, m ≠ Json.null) :
    ServerV3.normalizeIncoming body
      = some ⟨some (ms.map (fun m =>
            ServerV3.NormMsg.mk (ServerV3.normRole m) (ServerV3.normContent m))),
          ServerV3.paramsOf body⟩ := by
  cases body with
  | null => simp [jsGet] at hms
  | bool b => simp [jsGet] at hms
  | num n => simp [jsGet] at hms
  | str s => simp [jsGet] at hms
  | arr xs => simp [jsGet] at hms
  | obj fields =>
    have hlen : ms.length > 0 := by
      cases ms with
      | nil => exact absurd rfl hne
      | cons a l => simp
    simp only [ServerV3.normalizeIncoming, hms, hlen, if_pos,
      ServerV3.mapM_normMsgOf_eq ms hnn]
    rfl

/-- Concrete body for the C4 witness. -/
def w4Msgs : List Json :=
  [Json.obj [("role", Json.str "assistant"), ("content", Json.str "hi")],
   Json.obj [("content", Json.num 5)]]

/-- See `w4Msgs`. -/
def w4Body : Json := Json.obj [("messages", Json.arr w4Msgs)]

/-- Witness for C4 at a concrete two-element body: the element with an
explicit role and string content is kept verbatim; the element without a
role and with numeric content becomes `{role: "user", content: "5"}`. -/
theorem normalizeIncoming_messages_spec_witness :
    jsGet w4Body "messages" = some (Json.arr w4Msgs)
    ∧ w4Msgs ≠ []
    ∧ (∀ m ∈ w4Msgs, m ≠ Json.null)
    ∧ ServerV3.normalizeIncoming w4Body
      = some ⟨some [⟨Json.str "assistant", "hi"⟩, ⟨Json.str "user", "5"⟩], []⟩ := by
  have hmem : ∀ m ∈ w4Msgs, m ≠ Json.null := by
    intro m hm
    simp only [w4Msgs, List.mem_cons, List.mem_singleton] at hm
    rcases hm with rfl | rfl | h
    · exact fun h => Json.noConfusion h
    · exact fun h => Json.noConfusion h
    · exact absurd h (List.not_mem_nil m)
  refine ⟨rfl, by simp [w4Msgs], hmem, ?_⟩
  have h := normalizeIncoming_messages_spec w4Body w4Msgs rfl (by simp [w4Msgs]) hmem
  rw [h]
  rfl

/-- Minimal JSON string escaping (quote, backslash, and the common control
characters; other control characters do not occur in the inputs
considered). -/
def escapeChar (c : Char) : List Char :=
  if c = '"' then ['\\', '"']
  else if c = '\\' then ['\\', '\\']
  else if c = '\n' then ['\\', 'n']
  else if c = '\r' then ['\\', 'r']
  else if c = '\t' then ['\\', 't']
  else [c]

/-- See `escapeChar`. -/
def escapeJson (s : String) : String := String.mk ((s.toList.map escapeChar).flatten)

mutual

/-- `JSON.stringify` (no spacing), used by the handler only as the haystack
of a substring test. -/
def jsonStringify : Json → String
  | Json.null => "null"
  | Json.bool b => if b then "true" else "false"
  | Json.num n => toString n
  | Json.str s => "\"" ++ escapeJson s ++ "\""
  | Json.arr xs => "[" ++ stringifyArr xs ++ "]"
  | Json.obj fs => "\x7b" ++ stringifyFields fs ++ "\x7d"

/-- Array elements of `jsonStringify`. -/
def stringifyArr : List Json → String
  | [] => ""
  | [x] => jsonStringify x
  | x :: xs => jsonStringify x ++ "," ++ stringifyArr xs

/-- Object fields of `jsonStringify`. -/
def stringifyFields : List (String × Json) → String
  | [] => ""
  | [(k, v)] => "\"" ++ escapeJson k ++ "\":" ++ jsonStringify v
  | (k, v) :: fs => "\"" ++ escapeJson k ++ "\":" ++ jsonStringify v ++ ","
      ++ stringifyFields fs

end

namespace ServerV3

/-- The single locked upstream model of this proxy variant. -/
def MODEL_ID : String := "deepseek-ai/DeepSeek-R1-Distill-Qwen-1.5B"

/-- The 400 message of the request-shape rejection. -/
def msg400 : String := "Missing \x27messages\x27 or \x27input\x27 in request body."

/-- The value of `callRouterJson` (`src/server.ts` lines 565–597):
`{ok, status, data}` (the unread `statusText` is omitted). -/
structure RouterResult where
  ok : Bool
  status : Nat
  data : Json

/-- Embeds `callRouterJson` from `src/server.ts` lines 565–597 applied to the
outcome of its single `fetch`: exactly one attempt, no retry; a non-2xx
status yields the formatted error as `data`, a thrown fetch (timeout /
network) yields status 500 with the formatted error of the thrown message.
On success `safeJsonParse(text) ?? text` parses the body, keeping the raw
text when parsing fails or produces `null`. -/
def callRouterJson (jsonParse : String → Option Json) (f : FetchOutcome) :
    RouterResult :=
  match f with
  | FetchOutcome.http st text =>
    if isOkStatus st then
      ⟨true, st, (nonNullish (jsonParse text)).getD (Json.str text)⟩
    else
      ⟨false, st, errJson (formatHfError jsonParse st text)⟩
  | FetchOutcome.netErr m =>
    ⟨false, 500, errJson (formatHfError jsonParse 500 m)⟩

/-- `x && isString(x)`: the value when it is a truthy (non-empty) string. -/
def truthyStr : Option Json → Option String
  | some (Json.str s) => if s ≠ "" then some s else none
  | _ => none

/-- The `choices[0]` paths of `extractText`. -/
def extractChoices (data : Json) : Option String :=
  if truthy data then
    match jsGet data "choices" with
    | some (Json.arr (c :: _)) =>
      truthyStr ((jsGet c "message").bind (fun m => jsGet m "content"))
        <|> truthyStr (jsGet c "text")
    | _ => none
  else none

/-- Embeds `extractText` from `src/server.ts` lines 654–666: OpenAI-style
`choices[0].message.content`, `choices[0].text`, then `generated_text`,
`output_text`, then the body itself when it is a string. -/
def extractText (data : Json) : Option String :=
  extractChoices data
    <|> truthyStr (jsGet data "generated_text")
    <|> truthyStr (jsGet data "output_text")
    <|> (match data with
         | Json.str s => some s
         | _ => none)

/-- One line of `messagesToPrompt` (`src/server.ts` lines 645–652); `none`
models the `TypeError` of `.toLowerCase()` on a truthy non-string role. -/
def roleLine (m : NormMsg) : Option String :=
  match (if truthy m.role then m.role else Json.str "user") with
  | Json.str s =>
    let r := strLower s
    some (if r = "system" then "System: " ++ m.content
      else if r = "assistant" then "Assistant: " ++ m.content
      else "User: " ++ m.content)
  | _ => none

/-- Embeds `messagesToPrompt`: role-labelled lines joined by blank lines. -/
def messagesToPrompt (msgs : List NormMsg) : Option String :=
  (msgs.mapM roleLine).map (fun ls => String.intercalate "\n\n" ls)

/-- `chatPayload.stream === true`. -/
def streamFlag (params : List (String × Json)) : Bool :=
  match params.lookup "stream" with
  | some (Json.bool true) => true
  | _ => false

/-- The response body of the gateway (the relayed stream is not interpreted). -/
inductive RespBody where
  | empty
  | json (j : Json)
  | stream

/-- A finished gateway response: HTTP status, body, and — for the theorems —
the ordered list of message sequences handed to the upstream invoker (and,
for the completions fallback, to the prompt translator), one entry per
upstream call performed. -/
structure HandlerResp where
  status : Nat
  body : RespBody
  msgsSent : List (List NormMsg)

/-- Outcome of one request: a response, or an uncaught `TypeError`
(with the message sequences sent upstream before the throw). -/
inductive HandlerOutcome where
  | resp (r : HandlerResp)
  | thrown (msgsSent : List (List NormMsg))

/-- `{response: txt ?? data, modelUsed, endpoint, raw: data}`. -/
def successBody (endpointName : String) (data : Json) : Json :=
  Json.obj [("response", ((extractText data).map Json.str).getD data),
    ("modelUsed", Json.str MODEL_ID),
    ("endpoint", Json.str endpointName),
    ("raw", data)]

/-- The 400 rejection of the request normalizer. -/
def reject400 (jsonParse : String → Option Json) : HandlerOutcome :=
  .resp ⟨400, .json (errJson (formatHfError jsonParse 400 msg400)), []⟩

/-- The invocation stage of `handler` (after normalization produced the
non-empty `msgs`): `stream === true` relays `callRouterStream` (piped body
on 2xx, formatted error otherwise); otherwise one `callRouterJson` chat
attempt, with a single completions fallback when the 400 response mentions
"not a chat model" / "model_not_supported", and the upstream's own formatted
error passed through otherwise. -/
def handlerMsgs (jsonParse : String → Option Json) (msgs : List NormMsg)
    (params : List (String × Json)) (oracle : Nat → FetchOutcome) : HandlerOutcome :=
  if streamFlag params then
    match oracle 0 with
    | FetchOutcome.http st text =>
      if isOkStatus st then .resp ⟨st, .stream, [msgs]⟩
      else .resp ⟨st, .json (errJson (formatHfError jsonParse st text)), [msgs]⟩
    | FetchOutcome.netErr m =>
      .resp ⟨500, .json (errJson (formatHfError jsonParse 500 m)), [msgs]⟩
  else
    let chatRes := callRouterJson jsonParse (oracle 0)
    if chatRes.ok then
      .resp ⟨200, .json (successBody "chat" chatRes.data), [msgs]⟩
    else
      let errStr := strLower (jsonStringify chatRes.data)
      if chatRes.status == 400
          && (strContainsSub errStr "not a chat model"
            || strContainsSub errStr "model_not_supported") then
        match messagesToPrompt msgs with
        | none => .thrown [msgs]
        | some _prompt =>
          let compRes := callRouterJson jsonParse (oracle 1)
          if compRes.ok then
            .resp ⟨200, .json (successBody "completions" compRes.data), [msgs, msgs]⟩
          else
            .resp ⟨compRes.status, .json compRes.data, [msgs, msgs]⟩
      else
        .resp ⟨chatRes.status, .json chatRes.data, [msgs]⟩

/-- The validation stage of `handler`: no (or an empty) canonical message
sequence is rejected with the 400 validation error before any upstream
call. -/
def handlerNorm (jsonParse : String → Option Json) (normalized : Norm)
    (oracle : Nat → FetchOutcome) : HandlerOutcome :=
  match normalized.messages with
  | none => reject400 jsonParse
  | some [] => reject400 jsonParse
  | some (m :: rest) => handlerMsgs jsonParse (m :: rest) normalized.params oracle

/-- Embeds `handler` from `src/server.ts` lines 668–733 (this proxy variant
performs no caller authentication): OPTIONS → 204; non-POST → 405; an
unparseable body is ignored (`body` stays `{}`); then normalization,
validation (`handlerNorm`) and invocation (`handlerMsgs`).  `oracle i` is
the outcome of the i-th `fetch` of this request. -/
def handler (jsonParse : String → Option Json) (method : String)
    (parsedBody : Option Json) (oracle : Nat → FetchOutcome) : HandlerOutcome :=
  if method = "OPTIONS" then .resp ⟨204, .empty, []⟩
  else if method ≠ "POST" then
    .resp ⟨405, .json (errJson (formatHfError jsonParse 405 "Method Not Allowed")), []⟩
  else
    let body := parsedBody.getD (Json.obj [])
    match normalizeIncoming body with
    | none => .thrown []
    | some normalized => handlerNorm jsonParse normalized oracle

/-- The message sequences sent upstream in one outcome. -/
def sentOf : HandlerOutcome → List (List NormMsg)
  | HandlerOutcome.resp r => r.msgsSent
  | HandlerOutcome.thrown ls => ls

/-- Every branch of the invocation stage reports either one or two upstream
calls, each carrying exactly the normalized message sequence. -/
theorem handlerMsgs_sent (jsonParse : String → Option Json) (msgs : List NormMsg)
    (params : List (String × Json)) (oracle : Nat → FetchOutcome) :
    sentOf (handlerMsgs jsonParse msgs params oracle) = [msgs]
    ∨ sentOf (handlerMsgs jsonParse msgs params oracle) = [msgs, msgs] := by
  simp only [handlerMsgs]
  by_cases h1 : streamFlag params = true
  · rw [if_pos h1]
    cases oracle 0 with
    | http st text =>
      by_cases h2 : isOkStatus st = true
      · simp [sentOf, h2]
      · simp [sentOf, h2]
    | netErr m => simp [sentOf]
  · rw [if_neg h1]
    by_cases h2 : (callRouterJson jsonParse (oracle 0)).ok = true
    · rw [if_pos h2]; simp [sentOf]
    · rw [if_neg h2]
      by_cases h3 : ((callRouterJson jsonParse (oracle 0)).status == 400
          && (strContainsSub (strLower (jsonStringify (callRouterJson jsonParse (oracle 0)).data))
              "not a chat model"
            || strContainsSub (strLower (jsonStringify (callRouterJson jsonParse (oracle 0)).data))
              "model_not_supported")) = true
      · rw [if_pos h3]
        cases hmp : messagesToPrompt msgs with
        | none => simp [sentOf]
        | some pr =>
          by_cases h4 : (callRouterJson jsonParse (oracle 1)).ok = true
          · rw [if_pos h4]; simp [sentOf]
          · rw [if_neg h4]; simp [sentOf]
      · rw [if_neg h3]; simp [sentOf]

end ServerV3

/-- Claim C10: a POST whose body is not valid JSON does not throw and makes
no upstream call — the handler behaves exactly as on the empty-object body
`{}` and returns the same 400 validation error, with an empty list of
upstream calls. -/
theorem handler_bad_json_as_empty (jsonParse : String → Option Json)
    (oracle : Nat → FetchOutcome) :
    ServerV3.handler jsonParse "POST" none oracle
      = ServerV3.handler jsonParse "POST" (some (Json.obj [])) oracle
    ∧ ServerV3.handler jsonParse "POST" none oracle
      = ServerV3.HandlerOutcome.resp ⟨400,
          ServerV3.RespBody.json (ServerV3.errJson
            (ServerV3.formatHfError jsonParse 400 ServerV3.msg400)), []⟩ :=
  ⟨rfl, rfl⟩

/-- The message-sequence invariant of the `server.ts` handler: every message
sequence handed to the upstream invoker (including the one fed to the prompt
translator on the completions fallback) is non-empty, in every outcome. -/
theorem handler_msgsSent_nonempty (jsonParse : String → Option Json)
    (parsedBody : Option Json) (oracle : Nat → FetchOutcome) :
    ∀ l ∈ ServerV3.sentOf (ServerV3.handler jsonParse "POST" parsedBody oracle), l ≠ [] := by
  intro l hl
  rw [show ServerV3.handler jsonParse "POST" parsedBody oracle
      = (match ServerV3.normalizeIncoming (parsedBody.getD (Json.obj [])) with
         | none => ServerV3.HandlerOutcome.thrown []
         | some normalized => ServerV3.handlerNorm jsonParse normalized oracle) from rfl] at hl
  cases hN : ServerV3.normalizeIncoming (parsedBody.getD (Json.obj [])) with
  | none =>
    rw [hN] at hl
    simp [ServerV3.sentOf] at hl
  | some normalized =>
    rw [hN] at hl
    cases hM : normalized.messages with
    | none =>
      simp only [ServerV3.handlerNorm, hM] at hl
      simp [ServerV3.sentOf, ServerV3.reject400] at hl
    | some ms =>
      cases ms with
      | nil =>
        simp only [ServerV3.handlerNorm, hM] at hl
        simp [ServerV3.sentOf, ServerV3.reject400] at hl
      | cons m rest =>
        simp only [ServerV3.handlerNorm, hM] at hl
        rcases ServerV3.handlerMsgs_sent jsonParse (m :: rest) normalized.params oracle
          with hs | hs <;> rw [hs] at hl <;> simp at hl <;> subst hl <;>
          exact List.cons_ne_nil m rest

/-- Claim C3 (amended, for the `server.ts` handler): whenever the request
normalizer cannot produce at least one message, the handler returns 400 with
error code `INVALID_REQUEST` (the spec's `InvalidRequest`) and performs no
upstream call, and every message sequence that reaches the upstream invoker
(or the prompt translator feeding the completions fallback) is non-empty.
(A primitive JSON body — string, number, boolean — never satisfies the
normalization hypothesis: `normalizeIncoming` throws at `k in body`
(server.ts line 560), an uncaught error, so such bodies take the thrown
path rather than this 400.  The `part_003` template variant has no
normalizer at all and likewise throws — see the counterexample.) -/
theorem handler_empty_messages_reject (jsonParse : String → Option Json)
    (parsedBody : Option Json) (oracle : Nat → FetchOutcome) (norm : ServerV3.Norm)
    (hjp : jsonParse ServerV3.msg400 = none)
    (hnorm : ServerV3.normalizeIncoming (parsedBody.getD (Json.obj [])) = some norm)
    (hempty : norm.messages = none ∨ norm.messages = some []) :
    ServerV3.handler jsonParse "POST" parsedBody oracle
      = ServerV3.HandlerOutcome.resp ⟨400,
          ServerV3.RespBody.json (ServerV3.errJson
            (ServerV3.formatHfError jsonParse 400 ServerV3.msg400)), []⟩
    ∧ (ServerV3.formatHfError jsonParse 400 ServerV3.msg400).code = "INVALID_REQUEST"
    ∧ (∀ l ∈ ServerV3.sentOf (ServerV3.handler jsonParse "POST" parsedBody oracle),
        l ≠ []) := by
  refine ⟨?_, ?_, handler_msgsSent_nonempty jsonParse parsedBody oracle⟩
  · rw [show ServerV3.handler jsonParse "POST" parsedBody oracle
        = (match ServerV3.normalizeIncoming (parsedBody.getD (Json.obj [])) with
           | none => ServerV3.HandlerOutcome.thrown []
           | some n => ServerV3.handlerNorm jsonParse n oracle) from rfl]
    rw [hnorm]
    rcases hempty with h | h <;> simp only [ServerV3.handlerNorm, h] <;> rfl
  · have hmsg : ServerV3.hfErrorMsgOf jsonParse ServerV3.msg400
        = Json.str ServerV3.msg400 := by
      simp [ServerV3.hfErrorMsgOf, hjp, ServerV3.firstTruthy, truthyO]
    have hm : ServerV3.mentionsContextLength jsonParse ServerV3.msg400 = false := by
      simp only [ServerV3.mentionsContextLength, hmsg]
      decide
    rw [ServerV3.formatHfError_code_eq, hm]
    rfl

/-- A fetch oracle for the C3 witness (never consulted on its path). -/
def w3Oracle : Nat → FetchOutcome := fun _ => FetchOutcome.http 200 "ok"

/-- Witness for the amended C3 theorem on the empty body `{}`: normalization
yields no messages, and the handler answers 400 with no upstream call. -/
theorem handler_empty_messages_reject_witness :
    jsonParseNone ServerV3.msg400 = none
    ∧ ServerV3.normalizeIncoming ((some (Json.obj [])).getD (Json.obj []))
      = some ⟨none, []⟩
    ∧ ServerV3.handler jsonParseNone "POST" (some (Json.obj [])) w3Oracle
      = ServerV3.HandlerOutcome.resp ⟨400,
          ServerV3.RespBody.json (ServerV3.errJson
            (ServerV3.formatHfError jsonParseNone 400 ServerV3.msg400)), []⟩ := by
  refine ⟨rfl, rfl, ?_⟩
  exact (handler_empty_messages_reject jsonParseNone (some (Json.obj [])) w3Oracle
    ⟨none, []⟩ rfl rfl (Or.inl rfl)).1

/-- Claim C2 (amended): the upstream invoker performs exactly one attempt —
no retry, no backoff.  For every transient status (429, 502, 503, 504) the
non-streaming path surfaces the formatted upstream error immediately after a
single upstream call (`msgsSent` has exactly one entry), passing the status
through; the surfaced error object carries no `retryable` field at all. -/
theorem handler_transient_single_attempt (jsonParse : String → Option Json)
    (parsedBody : Option Json) (oracle : Nat → FetchOutcome)
    (norm : ServerV3.Norm) (msgs : List ServerV3.NormMsg) (st : Nat) (rawB : String)
    (hnorm : ServerV3.normalizeIncoming (parsedBody.getD (Json.obj [])) = some norm)
    (hmsgs : norm.messages = some msgs) (hne : msgs ≠ [])
    (hstream : ServerV3.streamFlag norm.params = false)
    (hst : st = 429 ∨ st = 502 ∨ st = 503 ∨ st = 504)
    (h0 : oracle 0 = FetchOutcome.http st rawB) :
    ServerV3.handler jsonParse "POST" parsedBody oracle
      = ServerV3.HandlerOutcome.resp ⟨st,
          ServerV3.RespBody.json (ServerV3.errJson
            (ServerV3.formatHfError jsonParse st rawB)), [msgs]⟩
    ∧ (jsGet (ServerV3.errJson (ServerV3.formatHfError jsonParse st rawB)) "error").bind
        (fun e => jsGet e "retryable") = none := by
  constructor
  · obtain ⟨m, rest, rfl⟩ := List.exists_cons_of_ne_nil hne
    have hnok : isOkStatus st = false := by
      rcases hst with rfl | rfl | rfl | rfl <;> decide
    have h400 : (st == 400) = false := by
      rcases hst with rfl | rfl | rfl | rfl <;> decide
    rw [show ServerV3.handler jsonParse "POST" parsedBody oracle
        = (match ServerV3.normalizeIncoming (parsedBody.getD (Json.obj [])) with
           | none => ServerV3.HandlerOutcome.thrown []
           | some n => ServerV3.handlerNorm jsonParse n oracle) from rfl]
    rw [hnorm]
    simp only [ServerV3.handlerNorm, hmsgs]
    simp only [ServerV3.handlerMsgs, hstream, Bool.false_eq_true, if_false, h0,
      ServerV3.callRouterJson, hnok, h400, Bool.false_and]
  · rfl

/-- The concrete valid body `{"messages":[{"role":"user","content":"hi"}]}`
used by the C2 theorems. -/
def bodyUserHi : Json :=
  Json.obj [("messages", Json.arr
    [Json.obj [("role", Json.str "user"), ("content", Json.str "hi")]])]

/-- A persistently failing upstream: every fetch returns 503. -/
def oracle503 : Nat → FetchOutcome := fun _ => FetchOutcome.http 503 "Service Unavailable"

/-- Claim C2 (counterexample): on a persistent upstream 503 the gateway
performs exactly one upstream attempt (not "multiple attempts") before
returning 503 with code `MODEL_LOADING`, and the surfaced error carries no
`retryable` field — refuting both the retry/backoff and the
`retryable: true` parts of the claim. -/
theorem handler_503_no_retry_cex :
    ServerV3.handler jsonParseNone "POST" (some bodyUserHi) oracle503
      = ServerV3.HandlerOutcome.resp ⟨503,
          ServerV3.RespBody.json (ServerV3.errJson
            (ServerV3.formatHfError jsonParseNone 503 "Service Unavailable")),
          [[⟨Json.str "user", "hi"⟩]]⟩
    ∧ (ServerV3.sentOf (ServerV3.handler jsonParseNone "POST" (some bodyUserHi)
        oracle503)).length = 1
    ∧ (ServerV3.formatHfError jsonParseNone 503 "Service Unavailable").code
      = "MODEL_LOADING"
    ∧ (jsGet (ServerV3.errJson (ServerV3.formatHfError jsonParseNone 503
          "Service Unavailable")) "error").bind (fun e => jsGet e "retryable")
      = none := by
  refine ⟨rfl, rfl, rfl, rfl⟩

/-- A persistently failing upstream returning 502, for the C2 witness. -/
def oracle502 : Nat → FetchOutcome := fun _ => FetchOutcome.http 502 "Bad Gateway"

/-- Witness for the amended C2 theorem at a concrete request and a 502
upstream: one attempt, status passed through, formatted error body. -/
theorem handler_transient_single_attempt_witness :
    ServerV3.normalizeIncoming ((some bodyUserHi).getD (Json.obj []))
      = some ⟨some [⟨Json.str "user", "hi"⟩], []⟩
    ∧ ServerV3.streamFlag [] = false
    ∧ oracle502 0 = FetchOutcome.http 502 "Bad Gateway"
    ∧ ServerV3.handler jsonParseNone "POST" (some bodyUserHi) oracle502
      = ServerV3.HandlerOutcome.resp ⟨502,
          ServerV3.RespBody.json (ServerV3.errJson
            (ServerV3.formatHfError jsonParseNone 502 "Bad Gateway")),
          [[⟨Json.str "user", "hi"⟩]]⟩ := by
  refine ⟨rfl, rfl, rfl, ?_⟩
  exact (handler_transient_single_attempt jsonParseNone (some bodyUserHi) oracle502
    ⟨some [⟨Json.str "user", "hi"⟩], []⟩ [⟨Json.str "user", "hi"⟩] 502 "Bad Gateway"
    rfl rfl (by simp) rfl (Or.inr (Or.inl rfl)) rfl).1

namespace Part003C

/-- The model table of the part_003 template variant (lines 168–172). -/
def MODELS : List (String × String) :=
  [("Nexari-G1", "Piyush-boss/Nexari-Qwen-3B-Full"),
   ("DeepSeek-R1", "deepseek-ai/DeepSeek-R1-Distill-Qwen-1.5B"),
   ("Qwen2.5-72B", "Qwen/Qwen2.5-72B-Instruct")]

/-- The default logical model key. -/
def DEFAULT_MODEL : String := "Nexari-G1"

/-- Template-literal interpolation `${v}`: `undefined` renders as the string
`"undefined"`, other values via the JavaScript string coercion. -/
def jsTemplate (v : Option Json) : String :=
  match v with
  | none => "undefined"
  | some j => jsToString j

/-- One delimited turn `<|im_start|>{role}\n{content}<|im_end|>\n` of
`applyChatTemplate`; `none` models the `TypeError` on a `null` element. -/
def turnOf (m : Json) : Option String :=
  match m with
  | Json.null => none
  | m' => some ("<|im_start|>" ++ jsTemplate (jsGet m' "role") ++ "\n"
      ++ jsTemplate (jsGet m' "content") ++ "<|im_end|>\n")

/-- The `for (const msg of messages) prompt += …` loop of
`applyChatTemplate`. -/
def turnsConcat : List Json → Option String
  | [] => some ""
  | m :: rest => (turnOf m).bind (fun t => (turnsConcat rest).map (fun ts => t ++ ts))

/-- Embeds `applyChatTemplate` from `src/unnamed/part_003` lines 178–195:
if the first message has `role === "system"` its turn opens the prompt and
the remaining messages follow; otherwise the default Nexari system turn is
prepended and all messages follow; an open assistant turn
`<|im_start|>assistant\n` (with no closing delimiter) ends the prompt.
`none` models the `TypeError` thrown by `messages[0].role` on an empty
array or a `null` first element (and by the loop on a later `null`). -/
def applyChatTemplate (messages : List Json) : Option String :=
  match messages with
  | [] => none
  | Json.null :: _ => none
  | m0 :: rest =>
    if jsIsStr (jsGet m0 "role") "system" then
      (turnOf m0).bind (fun t0 => (turnsConcat rest).map (fun ts =>
        t0 ++ ts ++ "<|im_start|>assistant\n"))
    else
      (turnsConcat (m0 :: rest)).map (fun ts =>
        "<|im_start|>system\nYou are Nexari, a helpful AI assistant.<|im_end|>\n"
          ++ ts ++ "<|im_start|>assistant\n")

/-- The URL-selection rule `getModelConfig` (lines 198–211): custom models —
identifier mentioning `Piyush-boss` or `Nexari` — use the raw generation
endpoint, everything else the router. -/
inductive ConfigType where
  | CUSTOM
  | VIP

/-- See `ConfigType`. -/
def getModelConfig (modelId : String) : ConfigType × String :=
  if strContainsSub modelId "Piyush-boss" || strContainsSub modelId "Nexari" then
    (ConfigType.CUSTOM, "https://api-inference.huggingface.co/models/" ++ modelId)
  else
    (ConfigType.VIP, "https://router.huggingface.co/v1/chat/completions")

/-- Embeds this variant's own `formatHfError` (lines 220–230). -/
def formatHfError (jsonParse : String → Option Json) (status : Nat)
    (rawBody : String) : Json :=
  let message : Json :=
    match jsonParse rawBody with
    | some j => ServerV3.firstTruthy (jsGet j "error") (jsGet j "message")
        (Json.str (jsonStringify j))
    | none => Json.str rawBody
  if status = 503 then
    Json.obj [("error", Json.obj [("code", Json.str "LOADING"),
      ("message", Json.str "Model is loading (Cold Boot). Wait 20s.")])]
  else if status = 404 then
    Json.obj [("error", Json.obj [("code", Json.str "NOT_FOUND"),
      ("message", Json.str "Model endpoint not found. Check URL logic.")])]
  else
    Json.obj [("error", Json.obj [("code", Json.str ("HF_" ++ toString status)),
      ("message", Json.str ("HF Error: " ++ jsToString message))])]

/-- Response bodies of this variant (the `catch` block's
`{error: err.message}` with a runtime exception text is `caught`). -/
inductive P3Body where
  | json (j : Json)
  | text (s : String)
  | caught
  | empty

/-- A finished response of the part_003 template variant, with the number of
upstream calls performed and the message sequences handed to
`applyChatTemplate`. -/
structure Result where
  status : Nat
  body : P3Body
  upstreamCalls : Nat
  templatedWith : List (List Json)

/-- The mock OpenAI structure built for the CUSTOM branch (the
runtime-generated `id` and `created` fields are omitted). -/
def mockOpenAI (generatedText : Json) : Json :=
  Json.obj [("object", Json.str "chat.completion"),
    ("choices", Json.arr [Json.obj [("index", Json.num 0),
      ("message", Json.obj [("role", Json.str "assistant"),
        ("content", generatedText)]),
      ("finish_reason", Json.str "stop")]])]

/-- `body.messages || []`, prepared for iteration: an array is used as-is,
falsy values give `[]`, a non-empty string is indexed/iterated per
character, and any other truthy value makes `messages[0].role` throw
(`none`). -/
def messagesOf (body : Json) : Option (List Json) :=
  match jsGet body "messages" with
  | some (Json.arr ms) => some ms
  | some (Json.str s) =>
    if s = "" then some []
    else some (s.toList.map (fun c => Json.str (String.mk [c])))
  | some (Json.bool b) => if b then none else some []
  | some (Json.num n) => if n = 0 then some [] else none
  | some (Json.obj _) => none
  | some Json.null => some []
  | none => some []

/-- Embeds `handler` from `src/unnamed/part_003` lines 233–333: CORS
preflight, presence-only token check, POST check, strict 400 on an
unparseable body, model resolution with default fallback, then the CUSTOM
branch (chat template → raw generation call → mock OpenAI normalization) or
the VIP branch (OpenAI-style call, response forwarded); any exception inside
the `try` — including the `applyChatTemplate` crash on an empty message
sequence — is caught and answered with status 500. -/
def handler (jsonParse : String → Option Json) (method : String)
    (token : Option String) (parsed : Option Json)
    (oracle : Nat → FetchOutcome) : Result :=
  if method = "OPTIONS" then ⟨204, .empty, 0, []⟩
  else if (match token with | none => true | some t => t = "") then
    ⟨401, .json (Json.obj [("error", Json.str "No Token")]), 0, []⟩
  else if method ≠ "POST" then ⟨405, .text "Only POST", 0, []⟩
  else
    match parsed with
    | none => ⟨400, .text "Bad JSON", 0, []⟩
    | some body =>
      let key := match jsGet body "model" with
        | some v => jsToString v
        | none => "undefined"
      let targetModelId := (MODELS.lookup key).getD ((MODELS.lookup DEFAULT_MODEL).getD "")
      let config := getModelConfig targetModelId
      match config.1 with
      | ConfigType.CUSTOM =>
        match messagesOf body with
        | none => ⟨500, .caught, 0, []⟩
        | some ms =>
          match applyChatTemplate ms with
          | none => ⟨500, .caught, 0, [ms]⟩
          | some _inputs =>
            match oracle 0 with
            | FetchOutcome.netErr _ => ⟨500, .caught, 1, [ms]⟩
            | FetchOutcome.http st text =>
              if isOkStatus st then
                match jsonParse text with
                | none => ⟨500, .caught, 1, [ms]⟩
                | some rawResponse =>
                  let gt : Json :=
                    match rawResponse with
                    | Json.arr (f :: _) =>
                      (match jsGet f "generated_text" with
                       | some v => if truthy v then v else Json.str ""
                       | none => Json.str "")
                    | _ => Json.str ""
                  ⟨200, .json (mockOpenAI gt), 1, [ms]⟩
              else ⟨st, .json (formatHfError jsonParse st text), 1, [ms]⟩
      | ConfigType.VIP =>
        match oracle 0 with
        | FetchOutcome.netErr _ => ⟨500, .caught, 1, []⟩
        | FetchOutcome.http st text =>
          if isOkStatus st then
            match jsonParse text with
            | none => ⟨500, .caught, 1, []⟩
            | some finalData => ⟨200, .json finalData, 1, []⟩
          else ⟨st, .json (formatHfError jsonParse st text), 1, []⟩

end Part003C

/-- Claim C3 (counterexample): the part_003 template-variant handler, given
the empty JSON body `{}` (from which no message can be produced), does not
return 400: the default model routes to the CUSTOM branch, the empty message
sequence reaches the prompt translator `applyChatTemplate` (refuting the
non-empty-translator invariant), `messages[0].role` throws, and the `catch`
answers 500 — with no upstream call. -/
theorem p3_handler_empty_body_throws_cex :
    Part003C.handler jsonParseNone "POST" (some "tok") (some (Json.obj [])) w3Oracle
      = ⟨500, Part003C.P3Body.caught, 0, [[]]⟩
    ∧ (500 : Nat) ≠ 400 := by
  refine ⟨rfl, by decide⟩

namespace Part003C

/-- A canonical chat message of the round-trip claim: string role and
content. -/
structure TMsg where
  role : String
  content : String
deriving DecidableEq

/-- The JSON object a canonical message presents to `applyChatTemplate`. -/
def toJson (m : TMsg) : Json :=
  Json.obj [("role", Json.str m.role), ("content", Json.str m.content)]

/-- The default system message that `applyChatTemplate` prepends. -/
def defaultSystemMsg : TMsg := ⟨"system", "You are Nexari, a helpful AI assistant."⟩

/-- The message sequence actually rendered: the input itself when it opens
with a system message, otherwise the default system message followed by the
input. -/
def fullSeq (msgs : List TMsg) : List TMsg :=
  match msgs with
  | [] => []
  | m0 :: rest => if m0.role = "system" then m0 :: rest else defaultSystemMsg :: m0 :: rest

/-- The turn-open delimiter. -/
def imStartL : List Char := "<|im_start|>".toList

/-- The turn-close delimiter. -/
def imEndL : List Char := "<|im_end|>".toList

/-- The trailing open assistant turn marker. -/
def assistantOpenL : List Char := "<|im_start|>assistant\n".toList

/-- Re-parser at the known delimiters (spec-side, the inverse the round-trip
property speaks about): repeatedly expect `<|im_start|>`, read the role up
to the first newline, the content up to the first `<|im_end|>`, then a
newline, until the input is exhausted. -/
def parseTurns : Nat → List Char → Option (List TMsg)
  | _, [] => some []
  | 0, _ :: _ => none
  | fuel + 1, c :: cs =>
    if imStartL.isPrefixOf (c :: cs) then
      match splitAtSub ['\n'] ((c :: cs).drop imStartL.length) with
      | none => none
      | some (role, rest1) =>
        match splitAtSub imEndL rest1 with
        | none => none
        | some (content, rest2) =>
          match rest2 with
          | '\n' :: rest3 =>
            (parseTurns fuel rest3).map
              (fun ms => (⟨String.mk role, String.mk content⟩ : TMsg) :: ms)
          | _ => none
    else none

/-- Re-parse a rendered template: strip the trailing open assistant marker,
then read the delimited turns. -/
def parseTemplate (s : String) : Option (List TMsg) :=
  let cs := s.toList
  if assistantOpenL.isSuffixOf cs then
    parseTurns cs.length (cs.take (cs.length - assistantOpenL.length))
  else none

/-- The string one canonical message renders to. -/
def turnStr (m : TMsg) : String :=
  "<|im_start|>" ++ m.role ++ "\n" ++ m.content ++ "<|im_end|>\n"

/-- The concatenation of rendered turns. -/
def concatTurns : List TMsg → String
  | [] => ""
  | m :: rest => turnStr m ++ concatTurns rest

/-- `turnStr` at character level. -/
def turnChars (m : TMsg) : List Char :=
  imStartL ++ (m.role.toList ++ '\n' :: (m.content.toList ++ imEndL ++ ['\n']))

/-- `concatTurns` at character level. -/
def turnsChars : List TMsg → List Char
  | [] => []
  | m :: rest => turnChars m ++ turnsChars rest

/-- `turnStr` and `turnChars` agree. -/
theorem toList_turnStr (m : TMsg) : (turnStr m).toList = turnChars m := by
  simp only [turnStr, turnChars, toList_append,
    show ("<|im_start|>" : String).toList = imStartL from rfl,
    show ("\n" : String).toList = ['\n'] from rfl,
    show ("<|im_end|>\n" : String).toList = imEndL ++ ['\n'] from rfl]
  simp [List.append_assoc]

/-- `concatTurns` and `turnsChars` agree. -/
theorem toList_concatTurns (ms : List TMsg) :
    (concatTurns ms).toList = turnsChars ms := by
  induction ms with
  | nil => rfl
  | cons m rest ih =>
    show (turnStr m ++ concatTurns rest).toList = turnChars m ++ turnsChars rest
    rw [toList_append, toList_turnStr, ih]

/-- `turnOf` on a canonical message renders its turn. -/
theorem turnOf_toJson (m : TMsg) : turnOf (toJson m) = some (turnStr m) := rfl

/-- The rendering loop on canonical messages. -/
theorem turnsConcat_toJson (ms : List TMsg) :
    turnsConcat (ms.map toJson) = some (concatTurns ms) := by
  induction ms with
  | nil => rfl
  | cons m rest ih =>
    simp [turnsConcat, turnOf_toJson, ih, concatTurns]

end Part003C

namespace Part003C

/-- `applyChatTemplate` on a canonical head message, by definition. -/
theorem applyChatTemplate_cons (m0 : TMsg) (L : List Json) :
    applyChatTemplate (toJson m0 :: L)
      = (if jsIsStr (jsGet (toJson m0) "role") "system" then
          (turnOf (toJson m0)).bind (fun t0 => (turnsConcat L).map (fun ts =>
            t0 ++ ts ++ "<|im_start|>assistant\n"))
        else
          (turnsConcat (toJson m0 :: L)).map (fun ts =>
            "<|im_start|>system\nYou are Nexari, a helpful AI assistant.<|im_end|>\n"
              ++ ts ++ "<|im_start|>assistant\n")) := rfl

/-- Rendering a non-empty canonical sequence yields the concatenated turns
of `fullSeq` followed by the open assistant marker. -/
theorem applyChatTemplate_toJson (m0 : TMsg) (rest : List TMsg) :
    applyChatTemplate ((m0 :: rest).map toJson)
      = some (concatTurns (fullSeq (m0 :: rest)) ++ "<|im_start|>assistant\n") := by
  rw [List.map_cons, applyChatTemplate_cons]
  by_cases hsys : m0.role = "system"
  · have hcond : jsIsStr (jsGet (toJson m0) "role") "system" = true := by
      simp [jsIsStr, toJson, jsGet, hsys]
    rw [if_pos hcond, turnOf_toJson, turnsConcat_toJson]
    show some (turnStr m0 ++ concatTurns rest ++ "<|im_start|>assistant\n") = _
    rw [show fullSeq (m0 :: rest) = m0 :: rest from by simp [fullSeq, hsys]]
    rw [show concatTurns (m0 :: rest) = turnStr m0 ++ concatTurns rest from rfl]
  · have hcond : jsIsStr (jsGet (toJson m0) "role") "system" = false := by
      simp [jsIsStr, toJson, jsGet, hsys]
    rw [if_neg (by simp [hcond])]
    rw [show (toJson m0 :: rest.map toJson) = (m0 :: rest).map toJson from by simp,
      turnsConcat_toJson]
    show some ("<|im_start|>system\nYou are Nexari, a helpful AI assistant.<|im_end|>\n"
      ++ concatTurns (m0 :: rest) ++ "<|im_start|>assistant\n") = _
    rw [show fullSeq (m0 :: rest) = defaultSystemMsg :: m0 :: rest from by
      simp [fullSeq, hsys]]
    rw [show concatTurns (defaultSystemMsg :: m0 :: rest)
      = turnStr defaultSystemMsg ++ concatTurns (m0 :: rest) from rfl]
    rw [show turnStr defaultSystemMsg
      = "<|im_start|>system\nYou are Nexari, a helpful AI assistant.<|im_end|>\n" from rfl]

/-- `parseTurns` with positive fuel on a cons cell, by definition. -/
theorem parseTurns_cons (fuel : Nat) (c : Char) (cs : List Char) :
    parseTurns (fuel + 1) (c :: cs)
      = (if imStartL.isPrefixOf (c :: cs) then
          match splitAtSub ['\n'] ((c :: cs).drop imStartL.length) with
          | none => none
          | some (role, rest1) =>
            match splitAtSub imEndL rest1 with
            | none => none
            | some (content, rest2) =>
              match rest2 with
              | '\n' :: rest3 =>
                (parseTurns fuel rest3).map
                  (fun ms => (⟨String.mk role, String.mk content⟩ : TMsg) :: ms)
              | _ => none
        else none) := rfl

/-- The rendered characters of one turn followed by anything, in the cons
form the parser sees. -/
theorem turnChars_append_eq (m : TMsg) (T : List Char) :
    turnChars m ++ T
      = '<' :: (("|im_start|>".toList)
          ++ (m.role.toList ++ '\n' :: (m.content.toList ++ imEndL ++ '\n' :: T))) := by
  rw [show turnChars m = imStartL ++ (m.role.toList ++ '\n'
      :: (m.content.toList ++ imEndL ++ ['\n'])) from rfl]
  rw [show imStartL = '<' :: ("|im_start|>".toList) from rfl]
  simp [List.append_assoc]

/-- One step of re-parsing a rendered turn: when the role contains no
newline and the content does not contain the close delimiter, the parser
recovers exactly that turn and continues after it. -/
theorem parseTurns_step (fuel : Nat) (m : TMsg) (T : List Char)
    (hrole : '\n' ∉ m.role.toList)
    (hcontent : ¬ imEndL <:+: m.content.toList) :
    parseTurns (fuel + 1) (turnChars m ++ T)
      = (parseTurns fuel T).map (fun ms => m :: ms) := by
  rw [turnChars_append_eq, parseTurns_cons]
  have hpre : imStartL.isPrefixOf ('<' :: (("|im_start|>".toList)
      ++ (m.role.toList ++ '\n' :: (m.content.toList ++ imEndL ++ '\n' :: T)))) = true := by
    apply List.isPrefixOf_iff_prefix.mpr
    rw [show ('<' :: (("|im_start|>".toList)
      ++ (m.role.toList ++ '\n' :: (m.content.toList ++ imEndL ++ '\n' :: T))))
      = imStartL ++ (m.role.toList ++ '\n' :: (m.content.toList ++ imEndL ++ '\n' :: T))
      from rfl]
    exact List.prefix_append _ _
  rw [if_pos hpre]
  rw [show ('<' :: (("|im_start|>".toList)
      ++ (m.role.toList ++ '\n' :: (m.content.toList ++ imEndL ++ '\n' :: T))))
      = imStartL ++ (m.role.toList ++ '\n' :: (m.content.toList ++ imEndL ++ '\n' :: T))
      from rfl]
  rw [List.drop_left]
  have hsplit1 : splitAtSub ['\n']
      (m.role.toList ++ '\n' :: (m.content.toList ++ imEndL ++ '\n' :: T))
      = some (m.role.toList, m.content.toList ++ imEndL ++ '\n' :: T) :=
    splitAtSub_single_append '\n' _ _ hrole
  have hsplit2 : splitAtSub imEndL (m.content.toList ++ imEndL ++ '\n' :: T)
      = some (m.content.toList, '\n' :: T) := by
    have h := splitAtSub_append '<' ("|im_end|>".toList) m.content.toList ('\n' :: T)
      (by decide) (by rw [show '<' :: ("|im_end|>".toList) = imEndL from rfl]; exact hcontent)
    rw [show '<' :: ("|im_end|>".toList) = imEndL from rfl] at h
    rw [show m.content.toList ++ imEndL ++ '\n' :: T
      = m.content.toList ++ (imEndL ++ '\n' :: T) from by simp [List.append_assoc]]
    rw [show m.content.toList ++ imEndL ++ ('\n' :: T)
      = m.content.toList ++ (imEndL ++ '\n' :: T) from by simp [List.append_assoc]] at h
    exact h
  simp only [hsplit1, hsplit2]
  rfl

end Part003C

namespace Part003C

/-- A rendered turn is at least one character long. -/
theorem turnChars_length_pos (m : TMsg) : 1 ≤ (turnChars m).length := by
  rw [show turnChars m = imStartL ++ (m.role.toList ++ '\n'
      :: (m.content.toList ++ imEndL ++ ['\n'])) from rfl]
  rw [List.length_append]
  have h12 : imStartL.length = 12 := rfl
  omega

/-- Re-parsing the rendered turns of a well-formed sequence recovers the
sequence, given enough fuel. -/
theorem parseTurns_render (msgs : List TMsg) : ∀ fuel,
    (turnsChars msgs).length ≤ fuel →
    (∀ m ∈ msgs, ('\n' ∉ m.role.toList) ∧ ¬ imEndL <:+: m.content.toList) →
    parseTurns fuel (turnsChars msgs) = some msgs := by
  induction msgs with
  | nil =>
    intro fuel _ _
    cases fuel <;> rfl
  | cons m rest ih =>
    intro fuel hfuel hw
    have hlen1 : 1 ≤ (turnChars m).length := turnChars_length_pos m
    have hlen : (turnsChars (m :: rest)).length
        = (turnChars m).length + (turnsChars rest).length := by
      rw [show turnsChars (m :: rest) = turnChars m ++ turnsChars rest from rfl]
      simp
    cases fuel with
    | zero => omega
    | succ f =>
      rw [show turnsChars (m :: rest) = turnChars m ++ turnsChars rest from rfl]
      rw [parseTurns_step f m (turnsChars rest)
        (hw m (List.mem_cons_self m rest)).1 (hw m (List.mem_cons_self m rest)).2]
      rw [ih f (by omega) (fun x hx => hw x (List.mem_cons_of_mem m hx))]
      rfl

/-- Re-parsing a full rendered template (turns plus open assistant marker)
recovers the well-formed sequence. -/
theorem parseTemplate_render (msgs : List TMsg)
    (hw : ∀ m ∈ msgs, ('\n' ∉ m.role.toList) ∧ ¬ imEndL <:+: m.content.toList) :
    parseTemplate (String.mk (turnsChars msgs ++ assistantOpenL)) = some msgs := by
  have hsuf : assistantOpenL.isSuffixOf (turnsChars msgs ++ assistantOpenL) = true :=
    List.isSuffixOf_iff_suffix.mpr (List.suffix_append _ _)
  have htln : (String.mk (turnsChars msgs ++ assistantOpenL)).toList
      = turnsChars msgs ++ assistantOpenL := rfl
  simp only [parseTemplate, htln, hsuf, if_true]
  have hsub : (turnsChars msgs ++ assistantOpenL).length - assistantOpenL.length
      = (turnsChars msgs).length := by simp
  rw [hsub, List.take_left]
  exact parseTurns_render msgs _ (by simp) hw

end Part003C

/-- Claim C5 (amended): translating a non-empty canonical request to the
`RawTemplate` dialect and re-parsing the rendered string at the known turn
delimiters recovers exactly the rendered role/content pairs in order — the
original messages, after the prepended default system turn when the first
message is not a system message, and before the trailing open assistant
marker — provided no role contains a newline and no content contains the
close delimiter `<|im_end|>`.  Without that proviso the round trip fails
(see the counterexample): a content embedding the delimiters is re-parsed
as several different turns. -/
theorem applyChatTemplate_roundTrip (msgs : List Part003C.TMsg)
    (hne : msgs ≠ [])
    (hw : ∀ m ∈ Part003C.fullSeq msgs,
      ('\n' ∉ m.role.toList) ∧ ¬ Part003C.imEndL <:+: m.content.toList) :
    (Part003C.applyChatTemplate (msgs.map Part003C.toJson)).bind Part003C.parseTemplate
      = some (Part003C.fullSeq msgs) := by
  obtain ⟨m0, rest, rfl⟩ := List.exists_cons_of_ne_nil hne
  rw [Part003C.applyChatTemplate_toJson m0 rest]
  show Part003C.parseTemplate
    (Part003C.concatTurns (Part003C.fullSeq (m0 :: rest)) ++ "<|im_start|>assistant\n")
    = some (Part003C.fullSeq (m0 :: rest))
  have hstr : Part003C.concatTurns (Part003C.fullSeq (m0 :: rest))
      ++ "<|im_start|>assistant\n"
      = String.mk (Part003C.turnsChars (Part003C.fullSeq (m0 :: rest))
          ++ Part003C.assistantOpenL) := by
    apply String.ext
    show (Part003C.concatTurns (Part003C.fullSeq (m0 :: rest))
      ++ "<|im_start|>assistant\n").toList = _
    rw [toList_append, Part003C.toList_concatTurns]
    rfl
  rw [hstr]
  exact Part003C.parseTemplate_render _ hw

/-- The injected message of the C5 counterexample: its content embeds the
turn delimiters. -/
def cex5Msgs : List Part003C.TMsg :=
  [⟨"user", "x<|im_end|>\n<|im_start|>user\ny"⟩]

set_option maxRecDepth 8192 in
/-- Claim C5 (counterexample): for the single user message whose content is
`"x<|im_end|>\n<|im_start|>user\ny"`, re-parsing the rendered template at
the known delimiters succeeds but recovers three pairs — the default system
turn, `(user, "x")` and `(user, "y")` — instead of the original single pair,
so the round trip does not hold for every canonical request. -/
theorem applyChatTemplate_roundTrip_cex :
    (Part003C.applyChatTemplate (cex5Msgs.map Part003C.toJson)).bind Part003C.parseTemplate
      = some [Part003C.defaultSystemMsg, ⟨"user", "x"⟩, ⟨"user", "y"⟩]
    ∧ some [Part003C.defaultSystemMsg, (⟨"user", "x"⟩ : Part003C.TMsg), ⟨"user", "y"⟩]
      ≠ some (Part003C.fullSeq cex5Msgs) := by
  refine ⟨by decide, by decide⟩

set_option maxRecDepth 8192 in
/-- Witness for the amended C5 theorem on `[{role: "user", content:
"hello"}]`: the hypotheses hold and re-parsing recovers the default system
turn followed by the user turn. -/
theorem applyChatTemplate_roundTrip_witness :
    ([⟨"user", "hello"⟩] : List Part003C.TMsg) ≠ []
    ∧ (∀ m ∈ Part003C.fullSeq [(⟨"user", "hello"⟩ : Part003C.TMsg)],
        ('\n' ∉ m.role.toList) ∧ ¬ Part003C.imEndL <:+: m.content.toList)
    ∧ (Part003C.applyChatTemplate
        (([⟨"user", "hello"⟩] : List Part003C.TMsg).map Part003C.toJson)).bind
          Part003C.parseTemplate
      = some (Part003C.fullSeq [⟨"user", "hello"⟩]) := by
  refine ⟨by decide, by decide, ?_⟩
  exact applyChatTemplate_roundTrip [⟨"user", "hello"⟩] (by decide) (by decide)

/-- The result of one `callRouter` / `callHf` invocation as the candidate
loops see it: `{ok, status, data}`. -/
structure CallRes where
  ok : Bool
  status : Nat
  data : Json

namespace Part006

/-- The advance test of `tryModelCandidates` (`src/unnamed/part_006` lines
148–157): HTTP 404, or HTTP 400 whose extracted message is a string
containing "does not exist" (lower-cased), or an extracted error code equal
to `"model_not_found"`.  The extractions are the nullish chains
`data?.error?.code ?? data?.code ?? null` and
`data?.error?.message ?? data?.message ?? data`. -/
def isNotFound (hf : CallRes) : Bool :=
  let code : Option Json :=
    nonNullish ((jsGet hf.data "error").bind (fun e => jsGet e "code"))
      <|> nonNullish (jsGet hf.data "code")
  let msg : Json :=
    ((nonNullish ((jsGet hf.data "error").bind (fun e => jsGet e "message")))
      <|> nonNullish (jsGet hf.data "message")).getD hf.data
  hf.status == 404
    || (hf.status == 400
      && (match msg with
          | Json.str s => strContainsSub (strLower s) "does not exist"
          | _ => false))
    || (match code with
        | some (Json.str t) => t = "model_not_found"
        | _ => false)

/-- One audit record pushed into `tried`. -/
structure Attempt where
  model : String
  status : Nat
  details : Json

/-- The three return shapes of `tryModelCandidates`:
`{success: true, model, hf}`, `{success: false, model, hf, tried}` and
`{success: false, model: null, tried}`. -/
inductive TryRes where
  | ok (model : String) (hf : CallRes)
  | stopped (model : String) (hf : CallRes) (tried : List Attempt)
  | exhausted (tried : List Attempt)

/-- The `for` loop of `tryModelCandidates`: `oracle i` is the result of the
i-th `callRouter` call of this request. -/
def tryLoop (oracle : Nat → CallRes) : List String → Nat → List Attempt → TryRes
  | [], _, tried => .exhausted tried
  | c :: cs, i, tried =>
    let hf := oracle i
    if hf.ok then .ok c hf
    else
      let tried' := tried ++ [⟨c, hf.status, hf.data⟩]
      if isNotFound hf then tryLoop oracle cs (i + 1) tried'
      else .stopped c hf tried'

/-- Embeds `tryModelCandidates` from `src/unnamed/part_006` lines 135–167:
sequential attempts over the first `min(candidates.length, maxAttempts)`
candidates. -/
def tryModelCandidates (oracle : Nat → CallRes) (candidates : List String)
    (maxAttempts : Nat) : TryRes :=
  tryLoop oracle (candidates.take (min candidates.length maxAttempts)) 0 []

/-- The audit records of the attempts on a candidate list starting at call
index `i`. -/
def attemptsOf (oracle : Nat → CallRes) : List String → Nat → List Attempt
  | [], _ => []
  | c :: cs, i => ⟨c, (oracle i).status, (oracle i).data⟩ :: attemptsOf oracle cs (i + 1)

/-- A failed attempt eligible to advance: not ok and a not-found outcome. -/
def failNF (hf : CallRes) : Bool := !hf.ok && isNotFound hf

/-- The loop invariantly: exhaustion aggregates every attempt; the first
success stops with that candidate; the first non-advance failure stops with
that candidate and the attempts so far. -/
theorem tryLoop_spec (oracle : Nat → CallRes) :
    ∀ (cs : List String) (i : Nat) (tried : List Attempt),
    ((∀ j, j < cs.length → failNF (oracle (i + j)) = true) →
      tryLoop oracle cs i tried = .exhausted (tried ++ attemptsOf oracle cs i))
    ∧ (∀ k c, cs.get? k = some c → (∀ j, j < k → failNF (oracle (i + j)) = true) →
        (oracle (i + k)).ok = true →
        tryLoop oracle cs i tried = .ok c (oracle (i + k)))
    ∧ (∀ k c, cs.get? k = some c → (∀ j, j < k → failNF (oracle (i + j)) = true) →
        (oracle (i + k)).ok = false → isNotFound (oracle (i + k)) = false →
        tryLoop oracle cs i tried
          = .stopped c (oracle (i + k))
              (tried ++ attemptsOf oracle (cs.take (k + 1)) i)) := by
  intro cs
  induction cs with
  | nil =>
    intro i tried
    refine ⟨fun _ => by simp [tryLoop, attemptsOf], ?_, ?_⟩
    · intro k c hk
      simp at hk
    · intro k c hk
      simp at hk
  | cons c0 cs' ih =>
    intro i tried
    refine ⟨?_, ?_, ?_⟩
    · intro hall
      have h0 : failNF (oracle (i + 0)) = true := hall 0 (by simp)
      simp only [Nat.add_zero] at h0
      have hok : (oracle i).ok = false := by
        simp [failNF] at h0
        exact h0.1
      have hnf : isNotFound (oracle i) = true := by
        simp [failNF] at h0
        exact h0.2
      show tryLoop oracle (c0 :: cs') i tried = _
      rw [show tryLoop oracle (c0 :: cs') i tried
        = (if (oracle i).ok then TryRes.ok c0 (oracle i)
           else if isNotFound (oracle i) then
             tryLoop oracle cs' (i + 1) (tried ++ [⟨c0, (oracle i).status, (oracle i).data⟩])
           else TryRes.stopped c0 (oracle i)
             (tried ++ [⟨c0, (oracle i).status, (oracle i).data⟩])) from rfl]
      rw [hok]
      simp only [Bool.false_eq_true, if_false, hnf, if_true]
      have hall' : ∀ j, j < cs'.length → failNF (oracle (i + 1 + j)) = true := by
        intro j hj
        have := hall (j + 1) (by simp; omega)
        rw [show i + (j + 1) = i + 1 + j from by omega] at this
        exact this
      have hrec := (ih (i + 1) (tried ++ [⟨c0, (oracle i).status, (oracle i).data⟩])).1 hall'
      rw [hrec]
      rw [show attemptsOf oracle (c0 :: cs') i
        = ⟨c0, (oracle i).status, (oracle i).data⟩ :: attemptsOf oracle cs' (i + 1) from rfl]
      simp
    · intro k c hk hprev hok
      cases k with
      | zero =>
        have hc : c0 = c := by simpa using hk
        subst hc
        simp only [Nat.add_zero] at hok
        rw [show tryLoop oracle (c0 :: cs') i tried
          = (if (oracle i).ok then TryRes.ok c0 (oracle i)
             else if isNotFound (oracle i) then
               tryLoop oracle cs' (i + 1) (tried ++ [⟨c0, (oracle i).status, (oracle i).data⟩])
             else TryRes.stopped c0 (oracle i)
               (tried ++ [⟨c0, (oracle i).status, (oracle i).data⟩])) from rfl]
        rw [hok]
        simp [Nat.add_zero]
      | succ k' =>
        have h0 : failNF (oracle (i + 0)) = true := hprev 0 (by omega)
        simp only [Nat.add_zero] at h0
        have hok0 : (oracle i).ok = false := by
          simp [failNF] at h0
          exact h0.1
        have hnf0 : isNotFound (oracle i) = true := by
          simp [failNF] at h0
          exact h0.2
        rw [show tryLoop oracle (c0 :: cs') i tried
          = (if (oracle i).ok then TryRes.ok c0 (oracle i)
             else if isNotFound (oracle i) then
               tryLoop oracle cs' (i + 1) (tried ++ [⟨c0, (oracle i).status, (oracle i).data⟩])
             else TryRes.stopped c0 (oracle i)
               (tried ++ [⟨c0, (oracle i).status, (oracle i).data⟩])) from rfl]
        rw [hok0]
        simp only [Bool.false_eq_true, if_false, hnf0, if_true]
        have hk' : cs'.get? k' = some c := by simpa using hk
        have hprev' : ∀ j, j < k' → failNF (oracle (i + 1 + j)) = true := by
          intro j hj
          have := hprev (j + 1) (by omega)
          rw [show i + (j + 1) = i + 1 + j from by omega] at this
          exact this
        have hok' : (oracle (i + 1 + k')).ok = true := by
          rw [show i + 1 + k' = i + (k' + 1) from by omega]
          exact hok
        have := (ih (i + 1) (tried ++ [⟨c0, (oracle i).status, (oracle i).data⟩])).2.1
          k' c hk' hprev' hok'
        rw [this]
        rw [show i + 1 + k' = i + (k' + 1) from by omega]
    · intro k c hk hprev hok hnf
      cases k with
      | zero =>
        have hc : c0 = c := by simpa using hk
        subst hc
        simp only [Nat.add_zero] at hok hnf
        rw [show tryLoop oracle (c0 :: cs') i tried
          = (if (oracle i).ok then TryRes.ok c0 (oracle i)
             else if isNotFound (oracle i) then
               tryLoop oracle cs' (i + 1) (tried ++ [⟨c0, (oracle i).status, (oracle i).data⟩])
             else TryRes.stopped c0 (oracle i)
               (tried ++ [⟨c0, (oracle i).status, (oracle i).data⟩])) from rfl]
        rw [hok, hnf]
        simp only [Bool.false_eq_true, if_false, Nat.add_zero]
        rw [show attemptsOf oracle ((c0 :: cs').take 1) i
          = [⟨c0, (oracle i).status, (oracle i).data⟩] from rfl]
      | succ k' =>
        have h0 : failNF (oracle (i + 0)) = true := hprev 0 (by omega)
        simp only [Nat.add_zero] at h0
        have hok0 : (oracle i).ok = false := by
          simp [failNF] at h0
          exact h0.1
        have hnf0 : isNotFound (oracle i) = true := by
          simp [failNF] at h0
          exact h0.2
        rw [show tryLoop oracle (c0 :: cs') i tried
          = (if (oracle i).ok then TryRes.ok c0 (oracle i)
             else if isNotFound (oracle i) then
               tryLoop oracle cs' (i + 1) (tried ++ [⟨c0, (oracle i).status, (oracle i).data⟩])
             else TryRes.stopped c0 (oracle i)
               (tried ++ [⟨c0, (oracle i).status, (oracle i).data⟩])) from rfl]
        rw [hok0]
        simp only [Bool.false_eq_true, if_false, hnf0, if_true]
        have hk' : cs'.get? k' = some c := by simpa using hk
        have hprev' : ∀ j, j < k' → failNF (oracle (i + 1 + j)) = true := by
          intro j hj
          have := hprev (j + 1) (by omega)
          rw [show i + (j + 1) = i + 1 + j from by omega] at this
          exact this
        have hok' : (oracle (i + 1 + k')).ok = false := by
          rw [show i + 1 + k' = i + (k' + 1) from by omega]
          exact hok
        have hnf' : isNotFound (oracle (i + 1 + k')) = false := by
          rw [show i + 1 + k' = i + (k' + 1) from by omega]
          exact hnf
        have := (ih (i + 1) (tried ++ [⟨c0, (oracle i).status, (oracle i).data⟩])).2.2
          k' c hk' hprev' hok' hnf'
        rw [this]
        rw [show i + 1 + k' = i + (k' + 1) from by omega]
        rw [show attemptsOf oracle ((c0 :: cs').take (k' + 1 + 1)) i
          = ⟨c0, (oracle i).status, (oracle i).data⟩
            :: attemptsOf oracle (cs'.take (k' + 1)) (i + 1) from rfl]
        simp

end Part006

namespace Part007

/-- Embeds `tryWithFallback` from `src/unnamed/part_007` lines 66–80:
`oracle i` is the result of the i-th `callHf` call of this request (the
`statusText` field of `callHf` results is never inspected by the loop and
is omitted from `CallRes`).  Success or a non-404 failure returns
`{model, res}`; a 404 advances; an exhausted list returns `null` — with no
aggregate record of the attempts. -/
def tryWithFallback (oracle : Nat → CallRes) : List String → Nat → Option (String × CallRes)
  | [], _ => none
  | m :: ms, i =>
    let r := oracle i
    if r.ok then some (m, r)
    else if r.status == 404 then tryWithFallback oracle ms (i + 1)
    else some (m, r)

/-- An upstream that answers 404 Not Found to every call. -/
def oracle404 : Nat → CallRes := fun _ => ⟨false, 404, Json.str "Not Found"⟩

end Part007

/-- Two candidates, both of which fail with the advance-eligible status 404,
so the list is exhausted without success — and `tryWithFallback` returns
`null`, not an aggregate report of the attempts. -/
theorem tryWithFallback_exhausted_null_cex :
    Part007.tryWithFallback Part007.oracle404
        ["deepseek-ai/DeepSeek-R1:fastest", "facebook/bart-large-mnli"] 0 = none
    ∧ (Part007.oracle404 0).ok = false ∧ (Part007.oracle404 0).status = 404
    ∧ (Part007.oracle404 1).ok = false ∧ (Part007.oracle404 1).status = 404 :=
  ⟨rfl, rfl, rfl, rfl, rfl⟩

/-- Claim C9 (amended): in `tryModelCandidates` (part_006) attempts run one
at a time in list order over the first `min(candidates.length, maxAttempts)`
candidates; when every one of those attempts fails with a not-found outcome
(HTTP 404, HTTP 400 whose message contains "does not exist", or error code
`model_not_found`), the result is the exhaustion report listing every
attempt's candidate, status and details; the first success stops the loop
with that candidate and its upstream result; the first failure that is not
a not-found outcome stops the loop with that candidate and the attempts so
far (including the stopping one).  The part_007 variant `tryWithFallback`
advances only on HTTP 404 and returns `null` on exhaustion, without any
aggregate report (see the counterexample). -/
theorem tryModelCandidates_seq_spec (oracle : Nat → CallRes)
    (candidates : List String) (maxAttempts : Nat) :
    ((∀ j, j < (candidates.take (min candidates.length maxAttempts)).length →
        Part006.failNF (oracle j) = true) →
      Part006.tryModelCandidates oracle candidates maxAttempts
        = Part006.TryRes.exhausted
            (Part006.attemptsOf oracle
              (candidates.take (min candidates.length maxAttempts)) 0))
    ∧ (∀ k c, (candidates.take (min candidates.length maxAttempts)).get? k = some c →
        (∀ j, j < k → Part006.failNF (oracle j) = true) →
        (oracle k).ok = true →
        Part006.tryModelCandidates oracle candidates maxAttempts
          = Part006.TryRes.ok c (oracle k))
    ∧ (∀ k c, (candidates.take (min candidates.length maxAttempts)).get? k = some c →
        (∀ j, j < k → Part006.failNF (oracle j) = true) →
        (oracle k).ok = false → Part006.isNotFound (oracle k) = false →
        Part006.tryModelCandidates oracle candidates maxAttempts
          = Part006.TryRes.stopped c (oracle k)
              (Part006.attemptsOf oracle
                ((candidates.take (min candidates.length maxAttempts)).take (k + 1)) 0)) := by
  have h := Part006.tryLoop_spec oracle
    (candidates.take (min candidates.length maxAttempts)) 0 []
  refine ⟨?_, ?_, ?_⟩
  · intro hall
    have := h.1 (by intro j hj; simpa using hall j hj)
    simpa [Part006.tryModelCandidates] using this
  · intro k c hk hprev hok
    have := h.2.1 k c hk (by intro j hj; simpa using hprev j hj) (by simpa using hok)
    simpa [Part006.tryModelCandidates] using this
  · intro k c hk hprev hok hnf
    have := h.2.2 k c hk (by intro j hj; simpa using hprev j hj)
      (by simpa using hok) (by simpa using hnf)
    simpa [Part006.tryModelCandidates] using this

/-- A concrete run with a first 404-failing candidate: the loop advances past
it and stops at the second candidate's success. -/
def oracle9 : Nat → CallRes := fun i =>
  if i = 0 then ⟨false, 404, Json.str "Not Found"⟩
  else ⟨true, 200, Json.obj [("answer", Json.str "ok")]⟩

/-- Witness for the C9 theorem at a concrete three-candidate list whose
first attempt 404s and whose second succeeds. -/
theorem tryModelCandidates_seq_spec_witness :
    (["a/m1", "b/m2", "c/m3"].take
        (min (List.length ["a/m1", "b/m2", "c/m3"]) 6)).get? 1 = some "b/m2"
    ∧ Part006.failNF (oracle9 0) = true
    ∧ (oracle9 1).ok = true
    ∧ Part006.tryModelCandidates oracle9 ["a/m1", "b/m2", "c/m3"] 6
        = Part006.TryRes.ok "b/m2" (oracle9 1) := by
  refine ⟨by decide, by decide, by decide, ?_⟩
  exact (tryModelCandidates_seq_spec oracle9 ["a/m1", "b/m2", "c/m3"] 6).2.1 1 "b/m2"
    (by decide)
    (by
      intro j hj
      have hj0 : j = 0 := by omega
      subst hj0
      decide)
    (by decide)

/-- A value returned by `List.lookup` is one of the stored values. -/
theorem lookup_mem_snd {α β : Type} [BEq α] (l : List (α × β)) (k : α) (v : β)
    (h : List.lookup k l = some v) : v ∈ l.map Prod.snd := by
  induction l with
  | nil => simp [List.lookup] at h
  | cons p rest ih =>
    obtain ⟨a, b⟩ := p
    cases hab : (k == a) with
    | true =>
      simp only [List.lookup, hab] at h
      have hbv : b = v := by simpa using h
      subst hbv
      simp
    | false =>
      simp only [List.lookup, hab] at h
      simp only [List.map_cons, List.mem_cons]
      exact Or.inr (ih h)

namespace ServerV1

/-- The `MODELS` table of `src/server.ts` lines 11–19. -/
def MODELS : List (String × String) :=
  [("Nexari-G1", "https://piyush-boss-nexari-server.hf.space/v1/chat/completions"),
   ("DeepSeek-R1", "deepseek-ai/DeepSeek-R1-Distill-Qwen-1.5B"),
   ("Qwen2.5-72B", "Qwen/Qwen2.5-72B-Instruct")]

/-- `src/server.ts` line 20. -/
def DEFAULT_MODEL : String := "Nexari-G1"

/-- `MODELS[modelKey] || MODELS[DEFAULT_MODEL]` (`src/server.ts` line 54):
a missing key yields `undefined` (falsy) and a present key yields the stored
URL, which `||` replaces by the default model\x27s URL when falsy (the stored
URLs are all non-empty, so only the missing-key case falls back; a miss on
the default key itself would leave `undefined`, modelled as `""`). -/
def resolveUrl (modelKey : String) : String :=
  match MODELS.lookup modelKey with
  | some url => if url = "" then (MODELS.lookup DEFAULT_MODEL).getD "" else url
  | none => (MODELS.lookup DEFAULT_MODEL).getD ""

/-- `modelKey = body.model || DEFAULT_MODEL` then the table read
(`src/server.ts` lines 53–54).  A truthy `body.model` of any type is used as
the property key (JavaScript coerces the key to a string); a falsy or absent
one defaults. -/
def resolveTarget (body : Json) : String :=
  resolveUrl (match jsGet body "model" with
    | some v => if truthy v then jsToString v else DEFAULT_MODEL
    | none => DEFAULT_MODEL)

/-- Every resolution lands on a configured URL. -/
theorem resolveUrl_mem (k : String) : resolveUrl k ∈ MODELS.map Prod.snd := by
  cases hlk : MODELS.lookup k with
  | none =>
    have hstep : resolveUrl k = (MODELS.lookup DEFAULT_MODEL).getD "" := by
      unfold resolveUrl
      rw [hlk]
    rw [hstep]
    decide
  | some url =>
    have hmem := lookup_mem_snd MODELS k url hlk
    have hstep : resolveUrl k
        = if url = "" then (MODELS.lookup DEFAULT_MODEL).getD "" else url := by
      unfold resolveUrl
      rw [hlk]
    rw [hstep]
    by_cases hurl : url = ""
    · rw [if_pos hurl]
      decide
    · rw [if_neg hurl]
      exact hmem

/-- A key missing from the table resolves to the default model\x27s URL. -/
theorem resolveUrl_miss (k : String) (h : MODELS.lookup k = none) :
    resolveUrl k = "https://piyush-boss-nexari-server.hf.space/v1/chat/completions" := by
  have hstep : resolveUrl k = (MODELS.lookup DEFAULT_MODEL).getD "" := by
    unfold resolveUrl
    rw [h]
  rw [hstep]
  decide

end ServerV1

namespace Part003R

/-- `body.model && isString(body.model) && body.model.trim()` then
`out.model = body.model.trim()` (`src/unnamed/part_003` lines 368–370): the
model is kept only when it is a truthy string whose trim is non-empty —
otherwise `out.model` stays absent and the handler rejects. -/
def normModel (body : Json) : Option String :=
  match jsGet body "model" with
  | some (Json.str s) =>
    if s ≠ "" ∧ String.mk (listTrim s.toList) ≠ "" then
      some (String.mk (listTrim s.toList))
    else none
  | _ => none

/-- The 8-key allow-list of `src/unnamed/part_003` line 386. -/
def allowedTopLevel : List String :=
  ["max_tokens", "temperature", "top_p", "n", "stream", "stop",
   "presence_penalty", "frequency_penalty"]

/-- `for (const k of allowedTopLevel) if (k in body) out[k] = body[k]`. -/
def paramsOf3R (body : Json) : List (String × Json) :=
  allowedTopLevel.filterMap (fun k => (jsGet body k).map (fun v => (k, v)))

/-- The result of `normalizeIncomingPayload`: optional model, optional
message list, forwarded parameters. -/
structure NormR where
  model : Option String
  messages : Option (List ServerV3.NormMsg)
  params : List (String × Json)

/-- The body of `normalizeIncomingPayload` (`src/unnamed/part_003` lines
360–392) on an object or array body: a `messages` array — of any length,
empty included — is mapped element-for-element exactly as in
`normalizeIncoming` (reusing `ServerV3.normMsgOf`; a `null` element throws,
modelled as `none`); otherwise the legacy branch synthesizes one user
message (identical to `ServerV3.legacyMessages`; the third `else if` on
`body.inputs` at line 381 is unreachable, because a truthy `body.inputs`
already satisfies the second branch). -/
def normBuild (body : Json) : Option NormR :=
  match (match jsGet body "messages" with
         | some (Json.arr ms) => (ms.mapM ServerV3.normMsgOf).map some
         | _ => some (ServerV3.legacyMessages body)) with
  | none => none
  | some msgs => some ⟨normModel body, msgs, paramsOf3R body⟩

/-- `normalizeIncomingPayload` on the parsed body: a `null` body throws at
`body.model`, and a primitive body throws at the `k in body` test of the
parameter loop, so only objects and arrays normalize (`none` models the
uncaught throw — this handler has no try/catch around normalization). -/
def normalizeIncomingPayload (body : Json) : Option NormR :=
  match body with
  | Json.obj _ => normBuild body
  | Json.arr _ => normBuild body
  | _ => none

/-- Embeds `callRouter` of the robust variant (`src/unnamed/part_003` lines
394–420): `data = safeJsonParse(text) ?? text`, no error formatting at any
status; a thrown fetch yields status 500 with `{error: message}` (the unread
`statusText` is omitted from the result). -/
def callRouter (jsonParse : String → Option Json) (f : FetchOutcome) :
    ServerV3.RouterResult :=
  match f with
  | FetchOutcome.http st text =>
    ⟨isOkStatus st, st, (nonNullish (jsonParse text)).getD (Json.str text)⟩
  | FetchOutcome.netErr m =>
    ⟨false, 500, Json.obj [("error", Json.str m)]⟩

/-- The `choices[0]` paths of `extractTextFromRouterResponse` (lines
425–429): a truthy string `message.content`, else any string `text`
(no truthiness requirement on `text`). -/
def extractChoices3R (data : Json) : Option Json :=
  if truthy data then
    match jsGet data "choices" with
    | some (Json.arr (c :: _)) =>
      ((ServerV3.truthyStr ((jsGet c "message").bind (fun m => jsGet m "content"))).map Json.str)
        <|> (match jsGet c "text" with
             | some (Json.str s) => some (Json.str s)
             | _ => none)
    | _ => none
  else none

/-- The HF-legacy path (lines 431–434): a truthy first array element that is
a string, else its truthy `generated_text` of any type. -/
def extractLegacy3R (data : Json) : Option Json :=
  match data with
  | Json.arr (f :: _) =>
    if truthy f then
      match f with
      | Json.str s => some (Json.str s)
      | _ => (jsGet f "generated_text").bind (fun g => if truthy g then some g else none)
    else none
  | _ => none

/-- Embeds `extractTextFromRouterResponse` (`src/unnamed/part_003` lines
422–442; the result is a JSON value because line 433 returns any truthy
`generated_text`). -/
def extractTextFromRouterResponse (data : Json) : Option Json :=
  extractChoices3R data
    <|> extractLegacy3R data
    <|> ((ServerV3.truthyStr (jsGet data "output_text")).map Json.str)
    <|> ((ServerV3.truthyStr (jsGet data "generated_text")).map Json.str)
    <|> (match data with
         | Json.str s => some (Json.str s)
         | _ => none)

/-- The 400 rejection for a missing model (`src/unnamed/part_003` line 461). -/
def missingModelMsg : String :=
  "Missing \x27model\x27 in request. Provide \x27model\x27 (e.g. \x27meta-llama/Meta-Llama-3-8B-Instruct\x27 or \x27deepseek-ai/DeepSeek-R1:fastest\x27)."

/-- The 400 rejection for missing or empty messages (line 468). -/
def missingMsgsMsg : String :=
  "Missing \x27messages\x27 or \x27input\x27 in request. Provide \x27messages\x27 (array) or \x27input\x27 string."

/-- The status-keyed hint strings accumulated at lines 507–512. -/
def commonHints (st : Nat) : List Json :=
  (if st = 400 then
    [Json.str "400 often means malformed payload (check \x27messages\x27 shape) or model not allowed for your account."]
   else [])
  ++ (if st = 401 ∨ st = 403 then [Json.str "401/403: token unauthorized or missing scopes."] else [])
  ++ (if st = 402 then [Json.str "402: model may require payment / Pro access."] else [])
  ++ (if st = 429 then [Json.str "429: rate limited."] else [])
  ++ (if st = 503 then [Json.str "503: model cold / loading; retry after a short delay."] else [])

/-- Embeds the robust-variant `handler` (`src/unnamed/part_003` lines
444–530).  `parsed` is the outcome of `req.json()` (`none` = parse failure,
leaving `body = \x7b\x7d`); `oracle i` is the i-th fetch.  The per-message
content re-check at lines 473–480 is the identity here: normalized contents
are already strings, so it rejects nothing.  The upstream error text
interpolates `hf.statusText || ""` — not carried by the fetch model, so
rendered as the empty string.  `routerPayload` fixes `stream: false`, then
the parameter copy may overwrite it; only the messages handed upstream are
tracked (`msgsSent`). -/
def handler (jsonParse : String → Option Json) (method : String)
    (parsed : Option Json) (oracle : Nat → FetchOutcome) : ServerV3.HandlerOutcome :=
  if method = "OPTIONS" then .resp ⟨204, .empty, []⟩
  else if method ≠ "POST" then
    .resp ⟨405, .json (Json.obj [("error", Json.str "Use POST")]), []⟩
  else
    match normalizeIncomingPayload (parsed.getD (Json.obj [])) with
    | none => .thrown []
    | some norm =>
      match norm.model with
      | none => .resp ⟨400, .json (Json.obj [("error", Json.str missingModelMsg)]), []⟩
      | some _ =>
        match norm.messages with
        | some (m0 :: rest) =>
          let msgs := m0 :: rest
          let hf := callRouter jsonParse (oracle 0)
          if hf.ok then
            match extractTextFromRouterResponse hf.data with
            | some t =>
              .resp ⟨200, .json (Json.obj [("response", t), ("raw", hf.data)]), [msgs]⟩
            | none => .resp ⟨200, .json (Json.obj [("response", hf.data)]), [msgs]⟩
          else
            .resp ⟨max 400 (min (if hf.status = 0 then 502 else hf.status) 599),
              .json (Json.obj
                [("error", Json.str ("Upstream Hugging Face Router returned "
                    ++ toString hf.status ++ " . See details.")),
                 ("hints", Json.arr (commonHints hf.status)),
                 ("details", hf.data)]), [msgs]⟩
        | _ => .resp ⟨400, .json (Json.obj [("error", Json.str missingMsgsMsg)]), []⟩

end Part003R

/-- A well-formed request carrying only `messages` — no `model` key — is
rejected by the robust part_003 handler with HTTP 400 and the
missing-model error, never served under a default model. -/
theorem p3robust_missing_model_cex :
    Part003R.handler jsonParseNone "POST" (some bodyUserHi) w3Oracle
      = ServerV3.HandlerOutcome.resp
          ⟨400, ServerV3.RespBody.json
            (Json.obj [("error", Json.str Part003R.missingModelMsg)]), []⟩
    ∧ jsGet bodyUserHi "model" = none :=
  ⟨rfl, rfl⟩

/-- Claim C7 (amended): in `src/server.ts` (lines 53–54) model resolution is
total — the resolved URL is always one of the configured table entries, and
whenever the request\x27s model key is absent, falsy, or not a key of the
table, the request is served with the default model\x27s URL rather than
rejected.  The robust part_003 variant (lines 459–464) behaves differently:
it deliberately requires an explicit model and rejects its absence with
HTTP 400 (see the counterexample), so the claim does not hold for every
incoming request across the repository. -/
theorem resolveTarget_total_default (body : Json) :
    ServerV1.resolveTarget body ∈ ServerV1.MODELS.map Prod.snd
    ∧ ((match jsGet body "model" with
        | some v => truthy v = false ∨ ServerV1.MODELS.lookup (jsToString v) = none
        | none => True) →
      ServerV1.resolveTarget body
        = "https://piyush-boss-nexari-server.hf.space/v1/chat/completions") := by
  constructor
  · unfold ServerV1.resolveTarget
    exact ServerV1.resolveUrl_mem _
  · intro hyp
    unfold ServerV1.resolveTarget
    cases hm : jsGet body "model" with
    | none => rfl
    | some v =>
      simp only [hm] at hyp ⊢
      rcases hyp with htv | hlk
      · rw [htv]
        rfl
      · by_cases htv : truthy v = true
        · rw [htv, if_pos rfl]
          exact ServerV1.resolveUrl_miss _ hlk
        · simp only [Bool.not_eq_true] at htv
          rw [htv]
          rfl

/-- Witness for the C7 theorem at the empty-object body: no model key, so
resolution lands on the default model\x27s URL, a configured table entry. -/
theorem resolveTarget_total_default_witness :
    ServerV1.resolveTarget (Json.obj []) ∈ ServerV1.MODELS.map Prod.snd
    ∧ ServerV1.resolveTarget (Json.obj [])
        = "https://piyush-boss-nexari-server.hf.space/v1/chat/completions" :=
  ⟨(resolveTarget_total_default (Json.obj [])).1,
   (resolveTarget_total_default (Json.obj [])).2 trivial⟩
